import Mathlib

/-!
# Verification of the darwindeck simulation core (`movegen.py`, `state.py`)

A shallow embedding of the generic card-game rule interpreter of the
`cards-evolve` repository: the immutable state model
(`src/darwindeck/simulation/state.py`), and move generation / move
application / trick, claim, war and betting resolution / win-condition
evaluation / special effects (`src/darwindeck/simulation/movegen.py`).

Python tuples become Lean lists, Python ints become `Int` (or `Nat` for
indices and counters that are only ever non-negative), fields default as in
the dataclasses.  Out-of-range tuple indexing, which raises `IndexError` in
Python, is modelled with `List.getD` / `List.set` (the latter is a no-op out
of range, exactly like the rebuilding comprehensions in the source when the
index is out of range); theorems carry well-formedness hypotheses that keep
their scope inside the states where the Python code does not raise.

The genome schema module (`darwindeck.genome.schema`) is not part of the
source snapshot; its types (`Rank`, `Suit`, `Location`, the phase records,
`SpecialEffect`, `EffectType`, `TargetSelector`, `WinCondition`,
`TurnStructure`, `GameGenome`) are modelled from the spec and from their
uses in `movegen.py`, `examples.py` and the tests.  Likewise the
`current_phase`, `skip_count` and `play_direction` fields of `GameState`:
`state.py` in the snapshot predates them, but `movegen.py`, the playtest
session and the test-suite all read and write them, so they are modelled
from the spec (`current_phase` index into the phase list, `skip_count`
pending skip credits, `play_direction` +1 or -1).
-/

namespace DarwinDeck

/-- The four suits (schema `Suit`; modelled from the spec, schema module
missing from the snapshot). -/
inductive Suit
  | HEARTS | DIAMONDS | CLUBS | SPADES
deriving DecidableEq, Repr

/-- The thirteen ranks (schema `Rank`). -/
inductive Rank
  | ACE | TWO | THREE | FOUR | FIVE | SIX | SEVEN | EIGHT | NINE | TEN
  | JACK | QUEEN | KING
deriving DecidableEq, Repr

/-- `RANK_VALUES` of `movegen.py`: ace-high numeric values 2..14. -/
def RANK_VALUES : Rank → Nat
  | .ACE => 14
  | .KING => 13
  | .QUEEN => 12
  | .JACK => 11
  | .TEN => 10
  | .NINE => 9
  | .EIGHT => 8
  | .SEVEN => 7
  | .SIX => 6
  | .FIVE => 5
  | .FOUR => 4
  | .THREE => 3
  | .TWO => 2

/-- `Card` of `state.py`: immutable (rank, suit) pair. -/
structure Card where
  rank : Rank
  suit : Suit
deriving DecidableEq, Repr

instance : Inhabited Card := ⟨⟨.ACE, .HEARTS⟩⟩

/-- `get_rank_value` of `movegen.py`. -/
def get_rank_value (c : Card) : Nat := RANK_VALUES c.rank

/-- `TrickCard` of `state.py`: a card played to the current trick. -/
structure TrickCard where
  player_id : Nat
  card : Card
deriving DecidableEq, Repr

instance : Inhabited TrickCard := ⟨⟨0, default⟩⟩

/-- `Claim` of `state.py`: a bluffing claim (claimed_rank is 0-12 for A-K). -/
structure Claim where
  claimer_id : Nat
  claimed_rank : Int
  claimed_count : Nat
  cards_played : List Card
deriving DecidableEq, Repr

/-- `PlayerState` of `state.py`. -/
structure PlayerState where
  player_id : Nat
  hand : List Card
  score : Int
  chips : Int := 0
  current_bet : Int := 0
  has_folded : Bool := false
  is_all_in : Bool := false
deriving DecidableEq, Repr

instance : Inhabited PlayerState := ⟨⟨0, [], 0, 0, 0, false, false⟩⟩

/-- `GameState` of `state.py`.  The fields `current_phase`, `skip_count` and
`play_direction` are modelled from the spec: the snapshot's `state.py`
predates them while `movegen.py` and the tests use them (spec §3: index into
the genome's phase list wrapping to 0; pending skip credits; +1 or -1). -/
structure GameState where
  players : List PlayerState
  deck : List Card
  discard : List Card
  turn : Nat
  active_player : Nat
  tableau : Option (List (List Card)) := none
  community : Option (List Card) := none
  pot : Int := 0
  current_bet : Int := 0
  raise_count : Int := 0
  current_trick : List TrickCard := []
  hearts_broken : Bool := false
  current_claim : Option Claim := none
  current_phase : Nat := 0
  skip_count : Int := 0
  play_direction : Int := 1
deriving DecidableEq, Repr

/-- `state.players[i]` (Python raises out of range; theorems carry
validity hypotheses). -/
def getPlayer (s : GameState) (i : Nat) : PlayerState := s.players.getD i default

/-- Card locations (schema `Location`; modelled from the spec: play targets
deck/discard/tableau, draw sources deck/discard/opponent-hand). -/
inductive Location
  | DECK | DISCARD | TABLEAU | OPPONENT_HAND
deriving DecidableEq, Repr

/-- Schema `PlayPhase` (fields used by `movegen.py`). -/
structure PlayPhase where
  target : Location
  min_cards : Int := 1
  max_cards : Int := 1
deriving DecidableEq, Repr

/-- Schema `DiscardPhase` (fields used by `movegen.py`). -/
structure DiscardPhase where
  target : Location
  mandatory : Bool := true
deriving DecidableEq, Repr

/-- Schema `TrickPhase` (fields used by `movegen.py`). -/
structure TrickPhase where
  lead_suit_required : Bool := true
  trump_suit : Option Suit := none
  high_card_wins : Bool := true
  breaking_suit : Option Suit := none
deriving DecidableEq, Repr

/-- Schema `ClaimPhase` (no field of it is read by `movegen.py`). -/
structure ClaimPhase where
  deriving DecidableEq, Repr

/-- Schema `DrawPhase` (fields used by `movegen.py`). -/
structure DrawPhase where
  source : Location
  count : Nat := 1
  mandatory : Bool := true
deriving DecidableEq, Repr

/-- Schema `BettingPhase` (fields used by `movegen.py`). -/
structure BettingPhase where
  min_bet : Int
  max_raises : Int
deriving DecidableEq, Repr

/-- One phase of the turn structure: the `isinstance` dispatch in
`movegen.py` becomes a sum type. -/
inductive Phase
  | play (p : PlayPhase)
  | discardPh (p : DiscardPhase)
  | trick (p : TrickPhase)
  | claimPh (p : ClaimPhase)
  | draw (p : DrawPhase)
  | betting (p : BettingPhase)
deriving DecidableEq, Repr

instance : Inhabited Phase := ⟨.claimPh {}⟩

/-- Schema `TurnStructure` (only `phases` is read by `movegen.py`). -/
structure TurnStructure where
  phases : List Phase
deriving DecidableEq, Repr

/-- Schema `WinCondition`: a type tag and an optional threshold. -/
structure WinCondition where
  type : String
  threshold : Option Int := none
deriving DecidableEq, Repr

/-- Schema `GameGenome` (the fields `movegen.py` reads). -/
structure GameGenome where
  turn_structure : TurnStructure
  win_conditions : List WinCondition
deriving DecidableEq, Repr

/-- Schema `EffectType`. -/
inductive EffectType
  | SKIP_NEXT | REVERSE_DIRECTION | DRAW_CARDS | EXTRA_TURN | FORCE_DISCARD
  | WILD_CARD | BLOCK_NEXT | SWAP_HANDS | STEAL_CARD | PEEK_HAND
deriving DecidableEq, Repr

/-- Schema `TargetSelector`. -/
inductive TargetSelector
  | SELF | NEXT_PLAYER | PREV_PLAYER | ALL_OPPONENTS | LEFT_OPPONENT
  | RIGHT_OPPONENT
deriving DecidableEq, Repr

/-- Schema `SpecialEffect` (`value` defaults to 1 per `test_schema.py`). -/
structure SpecialEffect where
  trigger_rank : Rank
  effect_type : EffectType
  target : TargetSelector
  value : Int := 1
deriving DecidableEq, Repr

/-- `BettingAction` of `movegen.py`. -/
inductive BettingAction
  | CHECK | BET | CALL | RAISE | ALL_IN | FOLD
deriving DecidableEq, Repr

/-- `BettingMove` of `movegen.py`. -/
structure BettingMove where
  action : BettingAction
  phase_index : Nat
deriving DecidableEq, Repr

/-- `LegalMove` of `movegen.py` (`card_index` keeps the negative
sentinels). -/
structure LegalMove where
  phase_index : Nat
  card_index : Int
  target_loc : Location
deriving DecidableEq, Repr

/-- An element of the `List[Union[LegalMove, BettingMove]]` returned by
`generate_legal_moves`. -/
inductive Move
  | legal (m : LegalMove)
  | betting (m : BettingMove)
deriving DecidableEq, Repr

/-- `MOVE_CHALLENGE` sentinel. -/
def MOVE_CHALLENGE : Int := -1

/-- `MOVE_CLAIM_PASS` sentinel. -/
def MOVE_CLAIM_PASS : Int := -2

/-- `MOVE_DRAW` sentinel. -/
def MOVE_DRAW : Int := -1

/-- `MOVE_DRAW_PASS` sentinel. -/
def MOVE_DRAW_PASS : Int := -3

/-! ## State transitions (`movegen.py`) -/

/-- `play_card` of `movegen.py`: move a card from a player's hand to a
target location.  `hand[:i] + hand[i+1:]` is `List.eraseIdx`; the `Location`
fall-through (no branch for `OPPONENT_HAND`) drops the card, exactly as the
Python does.  When the target is the tableau and `state.tableau` is an empty
pile list the Python raises on `tableau[0]`; here the head defaults to an
empty pile. -/
def play_card (s : GameState) (player_id : Nat) (card_index : Int)
    (target : Location) : GameState :=
  let player := getPlayer s player_id
  if card_index < 0 ∨ (player.hand.length : Int) ≤ card_index then s
  else
    let idx := card_index.toNat
    let card := player.hand.getD idx default
    let new_hand := player.hand.eraseIdx idx
    let new_players := s.players.set player_id { player with hand := new_hand }
    match target with
    | .DISCARD => { s with players := new_players, discard := s.discard ++ [card] }
    | .TABLEAU =>
        let tableau := match s.tableau with
          | none => [[]]
          | some t => t
        let new_pile := tableau.headD [] ++ [card]
        let new_tableau := new_pile :: tableau.tail
        { s with players := new_players, tableau := some new_tableau }
    | .DECK => { s with players := new_players, deck := s.deck ++ [card] }
    | _ => { s with players := new_players }

/-- `draw_card` of `movegen.py`: draw one card from a source location into a
player's hand.  The `OPPONENT_HAND` branch rebuilds the player tuple with
the drawing player's update taking precedence, which the nested `set`
reproduces. -/
def draw_card (s : GameState) (player_id : Nat) (source : Location) : GameState :=
  let player := getPlayer s player_id
  match source with
  | .DECK =>
      if s.deck = [] then s
      else
        let card := s.deck.headD default
        let new_players := s.players.set player_id { player with hand := player.hand ++ [card] }
        { s with players := new_players, deck := s.deck.tail }
  | .DISCARD =>
      if s.discard = [] then s
      else
        let card := s.discard.getLastD default
        let new_players := s.players.set player_id { player with hand := player.hand ++ [card] }
        { s with players := new_players, discard := s.discard.dropLast }
  | .OPPONENT_HAND =>
      let opponent_id := (player_id + 1) % s.players.length
      let opponent := getPlayer s opponent_id
      if opponent.hand = [] then s
      else
        let card := opponent.hand.getLastD default
        let new_opponent := { opponent with hand := opponent.hand.dropLast }
        let new_player := { player with hand := player.hand ++ [card] }
        let new_players := (s.players.set opponent_id new_opponent).set player_id new_player
        { s with players := new_players }
  | _ => s

/-- The `for _ in range(count)` draw loop of the `DrawPhase` branch of
`apply_move`. -/
def draw_loop (player_id : Nat) (source : Location) : Nat → GameState → GameState
  | 0, s => s
  | n + 1, s => draw_loop player_id source n (draw_card s player_id source)

/-- `resolve_war_battle` of `movegen.py`: compare the last two cards of the
first tableau pile; the higher rank takes the whole pile into hand, ties go
to the currently active player. -/
def resolve_war_battle (s : GameState) : GameState :=
  match s.tableau with
  | none => s
  | some piles =>
      if piles.length = 0 then s
      else
        let tableau := piles.headD []
        if tableau.length < 2 then s
        else
          let card1 := tableau.getD (tableau.length - 2) default
          let card2 := tableau.getLastD default
          let rank1 := get_rank_value card1
          let rank2 := get_rank_value card2
          let winner := if rank1 > rank2 then 0
            else if rank2 > rank1 then 1
            else s.active_player
          let winner_player := getPlayer s winner
          let new_players :=
            s.players.set winner { winner_player with hand := winner_player.hand ++ tableau }
          let new_tableau := [] :: piles.tail
          { s with players := new_players, tableau := some new_tableau }

/-- Whether `card` beats the running `winner_card` in the trick-resolution
loop of `resolve_trick` (trump beats non-trump; two trumps compare by
`high_card_wins`; among non-trumps only a lead-suit card can take over, and
only from a non-lead or lower/higher lead-suit holder). -/
def beats_winner (lead_suit : Suit) (trump_suit : Option Suit)
    (high_card_wins : Bool) (winner_card card : Card) : Bool :=
  let card_is_trump := trump_suit = some card.suit
  let winner_is_trump := trump_suit = some winner_card.suit
  let card_value := get_rank_value card
  let winner_value := get_rank_value winner_card
  if card_is_trump ∧ ¬ winner_is_trump then true
  else if card_is_trump ∧ winner_is_trump then
    (if high_card_wins then card_value > winner_value else card_value < winner_value)
  else if ¬ card_is_trump ∧ ¬ winner_is_trump then
    (if card.suit = lead_suit ∧ winner_card.suit = lead_suit then
      (if high_card_wins then card_value > winner_value else card_value < winner_value)
    else if card.suit = lead_suit ∧ winner_card.suit ≠ lead_suit then true
    else false)
  else false

/-- The winner-index fold of `resolve_trick` over
`enumerate(state.current_trick[1:], 1)`. -/
def trick_winner_idx (trick : List TrickCard) (trump_suit : Option Suit)
    (high_card_wins : Bool) (lead_suit : Suit) : Nat :=
  let first := (trick.headD default).card
  (((trick.drop 1).enum.map (fun p => (p.1 + 1, p.2))).foldl
    (fun acc p =>
      if beats_winner lead_suit trump_suit high_card_wins acc.2 p.2.card
      then (p.1, p.2.card) else acc)
    (0, first)).1

/-- `resolve_trick` of `movegen.py`: find the winning trick card, add one
point per trick card to the winner's score, clear the trick, make the winner
the active player, advance the phase (wrapping to 0) and increment the
turn. -/
def resolve_trick (s : GameState) (phase : TrickPhase) (genome : GameGenome) : GameState :=
  if s.current_trick = [] then s
  else
    let lead_suit := (s.current_trick.headD default).card.suit
    let winner_idx := trick_winner_idx s.current_trick phase.trump_suit phase.high_card_wins lead_suit
    let winner_player_id := (s.current_trick.getD winner_idx default).player_id
    let winner_player := getPlayer s winner_player_id
    let new_score := winner_player.score + s.current_trick.length
    let new_players := s.players.set winner_player_id { winner_player with score := new_score }
    let num_phases := genome.turn_structure.phases.length
    let next_phase := if s.current_phase + 1 ≥ num_phases then 0 else s.current_phase + 1
    { s with players := new_players,
             current_trick := [],
             active_player := winner_player_id,
             turn := s.turn + 1,
             current_phase := next_phase }

/-- The `rank_to_index` table of `resolve_challenge` (0 = A, ..., 12 = K);
total, since every rank string of the `Rank` enum appears in it. -/
def rank_to_index : Rank → Int
  | .ACE => 0
  | .TWO => 1
  | .THREE => 2
  | .FOUR => 3
  | .FIVE => 4
  | .SIX => 5
  | .SEVEN => 6
  | .EIGHT => 7
  | .NINE => 8
  | .TEN => 9
  | .JACK => 10
  | .QUEEN => 11
  | .KING => 12

/-- `resolve_challenge` of `movegen.py`: the claim is truthful iff every
card actually played matches the claimed rank; the loser (challenger if
truthful, claimer otherwise) takes the whole discard pile; discard and claim
are cleared. -/
def resolve_challenge (s : GameState) (challenger_id : Nat) : GameState :=
  match s.current_claim with
  | none => s
  | some claim =>
      let truthful := claim.cards_played.all (fun card => rank_to_index card.rank = claim.claimed_rank)
      let loser_id := if truthful then challenger_id else claim.claimer_id
      let loser_player := getPlayer s loser_id
      let new_players := s.players.set loser_id { loser_player with hand := loser_player.hand ++ s.discard }
      { s with players := new_players, discard := [], current_claim := none }

/-! ## Betting (`movegen.py`) -/

/-- `apply_betting_move` of `movegen.py`. -/
def apply_betting_move (s : GameState) (move : BettingMove) (phase : BettingPhase) : GameState :=
  let player := getPlayer s s.active_player
  match move.action with
  | .CHECK => s
  | .BET =>
      let new_chips := player.chips - phase.min_bet
      let new_player := { player with chips := new_chips,
                                      current_bet := phase.min_bet,
                                      is_all_in := new_chips ≤ 0 }
      let new_players := s.players.set s.active_player new_player
      { s with players := new_players,
               pot := s.pot + phase.min_bet,
               current_bet := phase.min_bet }
  | .CALL =>
      let to_call := max 0 (s.current_bet - player.current_bet)
      let new_chips := player.chips - to_call
      let new_player := { player with chips := new_chips,
                                      current_bet := s.current_bet,
                                      is_all_in := new_chips ≤ 0 }
      let new_players := s.players.set s.active_player new_player
      { s with players := new_players, pot := s.pot + to_call }
  | .RAISE =>
      let to_call := s.current_bet - player.current_bet
      let raise_amount := to_call + phase.min_bet
      let new_current_bet := s.current_bet + phase.min_bet
      let new_chips := player.chips - raise_amount
      let new_player := { player with chips := new_chips,
                                      current_bet := new_current_bet,
                                      is_all_in := new_chips ≤ 0 }
      let new_players := s.players.set s.active_player new_player
      { s with players := new_players,
               pot := s.pot + raise_amount,
               current_bet := new_current_bet,
               raise_count := s.raise_count + 1 }
  | .ALL_IN =>
      let amount := player.chips
      let new_current_bet := player.current_bet + amount
      let new_player := { player with chips := 0,
                                      current_bet := new_current_bet,
                                      is_all_in := true }
      let new_players := s.players.set s.active_player new_player
      let game_current_bet := max s.current_bet new_current_bet
      { s with players := new_players,
               pot := s.pot + amount,
               current_bet := game_current_bet }
  | .FOLD =>
      let new_player := { player with has_folded := true }
      let new_players := s.players.set s.active_player new_player
      { s with players := new_players }

/-- `generate_betting_moves` of `movegen.py` (the `phase_index` of every
returned move is 0, set later by the caller). -/
def generate_betting_moves (s : GameState) (phase : BettingPhase) (player_id : Nat) :
    List BettingMove :=
  let player := getPlayer s player_id
  if player.has_folded ∨ player.is_all_in ∨ player.chips ≤ 0 then []
  else
    let to_call := s.current_bet - player.current_bet
    if to_call = 0 then
      [⟨.CHECK, 0⟩]
      ++ (if player.chips ≥ phase.min_bet then [⟨.BET, 0⟩]
          else if player.chips > 0 then [⟨.ALL_IN, 0⟩] else [])
    else
      (if player.chips ≥ to_call then
        [⟨.CALL, 0⟩]
        ++ (if player.chips ≥ to_call + phase.min_bet ∧ s.raise_count < phase.max_raises
            then [⟨.RAISE, 0⟩] else [])
      else [])
      ++ (if player.chips > 0 ∧ player.chips < to_call then [⟨.ALL_IN, 0⟩] else [])
      ++ [⟨.FOLD, 0⟩]

/-! ## Special effects (`movegen.py`) -/

/-- `resolve_target` of `movegen.py` (-1 is the ALL_OPPONENTS sentinel). -/
def resolve_target (s : GameState) (target : TargetSelector) : Int :=
  let current : Int := s.active_player
  let num_players : Int := s.players.length
  let direction := s.play_direction
  match target with
  | .SELF => current
  | .NEXT_PLAYER => (current + direction + num_players) % num_players
  | .PREV_PLAYER => (current - direction + num_players) % num_players
  | .ALL_OPPONENTS => -1
  | .LEFT_OPPONENT => (current + 1 + num_players) % num_players
  | .RIGHT_OPPONENT => (current - 1 + num_players) % num_players

/-- `_apply_skip_next` of `movegen.py`: add to `skip_count`, capping at
`len(players) - 1`. -/
def _apply_skip_next (s : GameState) (value : Int) : GameState :=
  let new_skip := s.skip_count + value
  let max_skip : Int := (s.players.length : Int) - 1
  let new_skip := if new_skip > max_skip then max_skip else new_skip
  { s with skip_count := new_skip }

/-- `_draw_cards_for_player` of `movegen.py` (draw up to `count` cards off
the top of the deck into a player's hand). -/
def _draw_cards_for_player (s : GameState) (player_id : Nat) (count : Nat) : GameState :=
  let player := getPlayer s player_id
  let moved := min count s.deck.length
  let new_player := { player with hand := player.hand ++ s.deck.take moved }
  let new_players := s.players.set player_id new_player
  { s with players := new_players, deck := s.deck.drop moved }

/-- The `range(len(state.players))` loop of `_apply_draw_cards` /
`_apply_force_discard` for the ALL_OPPONENTS case. -/
def apply_to_opponents (f : GameState → Nat → GameState) (s : GameState) : GameState :=
  (List.range s.players.length).foldl
    (fun st i => if i ≠ st.active_player then f st i else st) s

/-- `_apply_draw_cards` of `movegen.py`. -/
def _apply_draw_cards (s : GameState) (target : TargetSelector) (count : Nat) : GameState :=
  let target_id := resolve_target s target
  if target_id = -1 then
    apply_to_opponents (fun st i => _draw_cards_for_player st i count) s
  else
    _draw_cards_for_player s target_id.toNat count

/-- `_force_discard_for_player` of `movegen.py` (discard from the end of the
hand, deterministic). -/
def _force_discard_for_player (s : GameState) (player_id : Nat) (count : Nat) : GameState :=
  let player := getPlayer s player_id
  let to_discard := min count player.hand.length
  let new_player := { player with hand := player.hand.take (player.hand.length - to_discard) }
  let new_players := s.players.set player_id new_player
  { s with players := new_players,
           discard := s.discard ++ (player.hand.drop (player.hand.length - to_discard)).reverse }

/-- `_apply_force_discard` of `movegen.py`. -/
def _apply_force_discard (s : GameState) (target : TargetSelector) (count : Nat) : GameState :=
  let target_id := resolve_target s target
  if target_id = -1 then
    apply_to_opponents (fun st i => _force_discard_for_player st i count) s
  else
    _force_discard_for_player s target_id.toNat count

/-- `_apply_swap_hands` of `movegen.py`. -/
def _apply_swap_hands (s : GameState) (target : TargetSelector) : GameState :=
  let target_id := resolve_target s target
  if target_id = -1 then s
  else if target_id = (s.active_player : Int) then s
  else
    let tid := target_id.toNat
    let active_player := getPlayer s s.active_player
    let target_player := getPlayer s tid
    let new_active := { active_player with hand := target_player.hand }
    let new_target := { target_player with hand := active_player.hand }
    let new_players := (s.players.set tid new_target).set s.active_player new_active
    { s with players := new_players }

/-- `_apply_steal_card` of `movegen.py` (steal from the end of the target's
hand, deterministic). -/
def _apply_steal_card (s : GameState) (target : TargetSelector) (count : Nat) : GameState :=
  let target_id := resolve_target s target
  if target_id = -1 then s
  else if target_id = (s.active_player : Int) then s
  else
    let tid := target_id.toNat
    let active_player := getPlayer s s.active_player
    let target_player := getPlayer s tid
    let to_steal := min count target_player.hand.length
    let keep := target_player.hand.length - to_steal
    let new_active := { active_player with
      hand := active_player.hand ++ (target_player.hand.drop keep).reverse }
    let new_target := { target_player with hand := target_player.hand.take keep }
    let new_players := (s.players.set tid new_target).set s.active_player new_active
    { s with players := new_players }

/-- `apply_effect` of `movegen.py`.  `value` is a count for the card-moving
effects (`range(count)` ignores negative values, hence `toNat`). -/
def apply_effect (s : GameState) (effect : SpecialEffect) : GameState :=
  match effect.effect_type with
  | .SKIP_NEXT => _apply_skip_next s effect.value
  | .BLOCK_NEXT => _apply_skip_next s effect.value
  | .REVERSE_DIRECTION => { s with play_direction := s.play_direction * -1 }
  | .DRAW_CARDS => _apply_draw_cards s effect.target effect.value.toNat
  | .EXTRA_TURN => { s with skip_count := (s.players.length : Int) - 1 }
  | .FORCE_DISCARD => _apply_force_discard s effect.target effect.value.toNat
  | .WILD_CARD => s
  | .SWAP_HANDS => _apply_swap_hands s effect.target
  | .STEAL_CARD => _apply_steal_card s effect.target effect.value.toNat
  | .PEEK_HAND => s

/-! ## Move generation and application (`movegen.py`) -/

/-- `generate_legal_moves` of `movegen.py`: all legal moves for the active
player in the phase at `state.current_phase`; empty when that index is out
of range. -/
def generate_legal_moves (s : GameState) (genome : GameGenome) : List Move :=
  let current_player := s.active_player
  let phase_idx := s.current_phase
  if phase_idx ≥ genome.turn_structure.phases.length then []
  else
    match genome.turn_structure.phases.getD phase_idx default with
    | .betting phase =>
        (generate_betting_moves s phase current_player).map
          (fun bm => Move.betting ⟨bm.action, phase_idx⟩)
    | .play phase =>
        if phase.min_cards ≤ 1 ∧ 1 ≤ phase.max_cards then
          (List.range (getPlayer s current_player).hand.length).map
            (fun card_idx => Move.legal ⟨phase_idx, card_idx, phase.target⟩)
        else []
    | .discardPh phase =>
        let hand := (getPlayer s current_player).hand
        ((List.range hand.length).map
          (fun card_idx => Move.legal ⟨phase_idx, card_idx, phase.target⟩))
        ++ (if ¬ phase.mandatory then [Move.legal ⟨phase_idx, -1, phase.target⟩] else [])
    | .trick phase =>
        let hand := (getPlayer s current_player).hand
        if hand.length = 0 then []
        else if s.current_trick.length = 0 then
          -- leading: any card, except an unbroken breaking suit while
          -- holding another suit
          hand.enum.filterMap (fun p =>
            if phase.breaking_suit = some p.2.suit ∧ ¬ s.hearts_broken ∧
               hand.any (fun c => ¬ phase.breaking_suit = some c.suit)
            then none
            else some (Move.legal ⟨phase_idx, p.1, .TABLEAU⟩))
        else
          let lead_suit := (s.current_trick.headD default).card.suit
          if phase.lead_suit_required then
            if hand.any (fun card => card.suit = lead_suit) then
              hand.enum.filterMap (fun p =>
                if p.2.suit = lead_suit
                then some (Move.legal ⟨phase_idx, p.1, .TABLEAU⟩) else none)
            else
              (List.range hand.length).map
                (fun card_idx => Move.legal ⟨phase_idx, card_idx, .TABLEAU⟩)
          else
            (List.range hand.length).map
              (fun card_idx => Move.legal ⟨phase_idx, card_idx, .TABLEAU⟩)
    | .claimPh _ =>
        match s.current_claim with
        | none =>
            (List.range (getPlayer s current_player).hand.length).map
              (fun card_idx => Move.legal ⟨phase_idx, card_idx, .DISCARD⟩)
        | some claim =>
            if current_player ≠ claim.claimer_id then
              [Move.legal ⟨phase_idx, MOVE_CHALLENGE, .DISCARD⟩,
               Move.legal ⟨phase_idx, MOVE_CLAIM_PASS, .DISCARD⟩]
            else []
    | .draw phase =>
        let can_draw : Bool := match phase.source with
          | .DECK => decide (s.deck.length > 0)
          | .DISCARD => decide (s.discard.length > 0)
          | .OPPONENT_HAND =>
              decide ((getPlayer s ((current_player + 1) % s.players.length)).hand.length > 0)
          | _ => false
        (if can_draw then [Move.legal ⟨phase_idx, MOVE_DRAW, phase.source⟩] else [])
        ++ (if ¬ phase.mandatory then [Move.legal ⟨phase_idx, MOVE_DRAW_PASS, phase.source⟩] else [])

/-- The TrickPhase play of `apply_move`: move the card at `idx` from the
active player's hand onto the current trick, setting `hearts_broken` when
the card is of the phase's breaking suit. -/
def trick_play_state (s : GameState) (phase : TrickPhase) (idx : Nat) : GameState :=
  let player := getPlayer s s.active_player
  let card := player.hand.getD idx default
  let new_hand := player.hand.eraseIdx idx
  let new_players := s.players.set s.active_player { player with hand := new_hand }
  let new_trick := s.current_trick ++ [⟨s.active_player, card⟩]
  let hearts_broken :=
    if phase.breaking_suit = some card.suit then true else s.hearts_broken
  { s with players := new_players,
           current_trick := new_trick,
           hearts_broken := hearts_broken }

/-- The claim-making play of `apply_move`: move the card at `idx` from the
active player's hand onto the discard (face down) and record a claim whose
claimed rank is `turn mod 13`; no-op when `idx` is out of range. -/
def claim_play_state (s : GameState) (idx : Nat) : GameState :=
  let player := getPlayer s s.active_player
  if idx < player.hand.length then
    let card := player.hand.getD idx default
    let new_hand := player.hand.eraseIdx idx
    let new_players := s.players.set s.active_player { player with hand := new_hand }
    let new_discard := s.discard ++ [card]
    let claimed_rank : Int := (s.turn : Int) % 13
    { s with players := new_players,
             discard := new_discard,
             current_claim := some ⟨s.active_player, claimed_rank, 1, [card]⟩ }
  else s

/-- The generic phase/turn/player advance at the end of `apply_move`:
increment `current_phase`; on overflow wrap to 0, advance the active player
and increment `turn`; otherwise keep player and turn. -/
def generic_advance (s : GameState) (genome : GameGenome) : GameState :=
  let num_phases := genome.turn_structure.phases.length
  let next_phase := s.current_phase + 1
  if next_phase ≥ num_phases then
    { s with current_phase := 0,
             active_player := (s.active_player + 1) % s.players.length,
             turn := s.turn + 1 }
  else
    { s with current_phase := next_phase }

/-- `apply_move` of `movegen.py`: dispatch on the phase at
`move.phase_index` (unchanged state when out of range), resolve the
phase-specific consequences, then the generic advance unless a branch
returned early (completed trick, challenge, claim accept, incomplete
trick). -/
def apply_move (s : GameState) (move : LegalMove) (genome : GameGenome) : GameState :=
  if move.phase_index ≥ genome.turn_structure.phases.length then s
  else
    let phase := genome.turn_structure.phases.getD move.phase_index default
    let current_player := s.active_player
    match phase with
    | .play _ =>
        let s1 :=
          if 0 ≤ move.card_index then
            let s1 := play_card s current_player move.card_index move.target_loc
            if move.target_loc = .TABLEAU ∧ s1.players.length = 2
            then resolve_war_battle s1 else s1
          else s
        generic_advance s1 genome
    | .discardPh _ =>
        let s1 :=
          if 0 ≤ move.card_index then
            play_card s current_player move.card_index move.target_loc
          else s
        generic_advance s1 genome
    | .trick phase =>
        if 0 ≤ move.card_index ∧
            move.card_index < (((getPlayer s current_player).hand.length : Int)) then
          let s1 := trick_play_state s phase move.card_index.toNat
          if s1.current_trick.length ≥ s1.players.length then
            resolve_trick s1 phase genome
          else
            { s1 with active_player := (s1.active_player + 1) % s1.players.length,
                      turn := s1.turn + 1 }
        else generic_advance s genome
    | .claimPh _ =>
        if 0 ≤ move.card_index then
          generic_advance (claim_play_state s move.card_index.toNat) genome
        else if move.card_index = MOVE_CHALLENGE then
          match s.current_claim with
          | some _ =>
              let s1 := resolve_challenge s current_player
              { s1 with turn := s1.turn + 1 }
          | none => generic_advance s genome
        else if move.card_index = MOVE_CLAIM_PASS then
          { s with current_claim := none, turn := s.turn + 1 }
        else generic_advance s genome
    | .draw phase =>
        let s1 :=
          if move.card_index = MOVE_DRAW then
            draw_loop current_player phase.source phase.count s
          else s
        generic_advance s1 genome
    | .betting _ => generic_advance s genome

/-! ## Poker hand evaluation (`movegen.py`) -/

/-- The `PokerHandRank` constants. -/
def PokerHandRank.HIGH_CARD : Nat := 0
/-- One pair. -/
def PokerHandRank.ONE_PAIR : Nat := 1
/-- Two pair. -/
def PokerHandRank.TWO_PAIR : Nat := 2
/-- Three of a kind. -/
def PokerHandRank.THREE_OF_A_KIND : Nat := 3
/-- Straight. -/
def PokerHandRank.STRAIGHT : Nat := 4
/-- Flush. -/
def PokerHandRank.FLUSH : Nat := 5
/-- Full house. -/
def PokerHandRank.FULL_HOUSE : Nat := 6
/-- Four of a kind. -/
def PokerHandRank.FOUR_OF_A_KIND : Nat := 7
/-- Straight flush. -/
def PokerHandRank.STRAIGHT_FLUSH : Nat := 8

/-- Descending (count, rank) order used for the kicker list. -/
def pairGE (a b : Nat × Nat) : Prop := b.1 < a.1 ∨ (a.1 = b.1 ∧ b.2 ≤ a.2)

instance : DecidableRel pairGE := fun a b => by unfold pairGE; infer_instance

/-- `evaluate_poker_hand` of `movegen.py`: returns (category, kickers).
`sorted(cards, key=rank, reverse=True)` becomes a descending sort of the
rank values (the suit list is only used for the flush set-size test, so the
order of equal-rank cards is irrelevant); the `A-2-3-4-5` wheel rewrites the
rank list to `[5,4,3,2,1]` before the counting, as in the source. -/
def evaluate_poker_hand (cards : List Card) : Nat × List Nat :=
  if cards.length ≠ 5 then (PokerHandRank.HIGH_CARD, [])
  else
    let ranks := (cards.map get_rank_value).insertionSort (· ≥ ·)
    let suits := cards.map (·.suit)
    let is_flush := suits.all (· = suits.headD .HEARTS)
    let straight_run := decide (ranks = (List.range 5).map (fun i => ranks.headD 0 - i))
    let is_wheel := decide (ranks = [14, 5, 4, 3, 2])
    let is_straight := straight_run || is_wheel
    let ranks := if is_wheel then [5, 4, 3, 2, 1] else ranks
    let uniq := ranks.dedup
    let counts := (uniq.map (fun r => ranks.count r)).insertionSort (· ≥ ·)
    let kickers := ((uniq.map (fun r => (ranks.count r, r))).insertionSort pairGE).map (·.2)
    let top := ranks.foldl max 0
    if is_straight ∧ is_flush then (PokerHandRank.STRAIGHT_FLUSH, [top])
    else if counts = [4, 1] then (PokerHandRank.FOUR_OF_A_KIND, kickers)
    else if counts = [3, 2] then (PokerHandRank.FULL_HOUSE, kickers)
    else if is_flush then (PokerHandRank.FLUSH, ranks)
    else if is_straight then (PokerHandRank.STRAIGHT, [top])
    else if counts = [3, 1, 1] then (PokerHandRank.THREE_OF_A_KIND, kickers)
    else if counts = [2, 2, 1] then (PokerHandRank.TWO_PAIR, kickers)
    else if counts = [2, 1, 1, 1] then (PokerHandRank.ONE_PAIR, kickers)
    else (PokerHandRank.HIGH_CARD, ranks)

/-- The kicker-by-kicker `zip` loop of `compare_poker_hands`. -/
def compare_kickers : List Nat → List Nat → Int
  | k1 :: t1, k2 :: t2 =>
      if k1 > k2 then 1 else if k1 < k2 then -1 else compare_kickers t1 t2
  | _, _ => 0

/-- `compare_poker_hands` of `movegen.py`: 1 if the first hand wins, -1 if
the second wins, 0 for a tie; category first, then kickers. -/
def compare_poker_hands (hand1 hand2 : Nat × List Nat) : Int :=
  if hand1.1 > hand2.1 then 1
  else if hand1.1 < hand2.1 then -1
  else compare_kickers hand1.2 hand2.2

/-- `find_best_poker_winner` of `movegen.py`: first player with a 5-card
hand no other later player strictly beats. -/
def find_best_poker_winner (s : GameState) : Option Nat :=
  (s.players.enum.foldl
    (fun acc p =>
      if p.2.hand.length ≠ 5 then acc
      else match acc with
        | none => some (p.1, evaluate_poker_hand p.2.hand)
        | some best =>
            if compare_poker_hands (evaluate_poker_hand p.2.hand) best.2 > 0
            then some (p.1, evaluate_poker_hand p.2.hand) else acc)
    none).map (·.1)

/-! ## Win conditions (`movegen.py`) -/

/-- One iteration of the highest-score loop of `check_win_conditions`:
take over the running (max, winner) on strict improvement. -/
def high_step (acc : Int × Option Nat) (p : Nat × PlayerState) : Int × Option Nat :=
  if p.2.score > acc.1 then (p.2.score, some p.1) else acc

/-- The highest-score loop of the `high_score` / `most_captured` branches of
`check_win_conditions` (running maximum starts at -1, strict improvement, so
the first player attaining the maximum wins). -/
def find_high_winner (players : List PlayerState) : Option Nat :=
  (players.enum.foldl high_step ((-1 : Int), (none : Option Nat))).2

/-- One iteration of the lowest-score loop of `check_win_conditions`:
take over the running (min, winner) on strict improvement. -/
def low_step (acc : Int × Option Nat) (p : Nat × PlayerState) : Int × Option Nat :=
  if p.2.score < acc.1 then (p.2.score, some p.1) else acc

/-- The lowest-score loop of the `low_score` / `all_hands_empty` branches of
`check_win_conditions` (running minimum starts at the sentinel 999999,
strict improvement, so the first player attaining the minimum wins). -/
def find_low_winner (players : List PlayerState) : Option Nat :=
  (players.enum.foldl low_step ((999999 : Int), (none : Option Nat))).2

/-- One `wc` iteration of the loop of `check_win_conditions`, for every
condition type except `best_hand` (whose branch returns unconditionally and
is inlined in `check_list`).  Unrecognized types yield `none`. -/
def check_one (s : GameState) (wc : WinCondition) : Option Nat :=
  if wc.type = "empty_hand" then
    s.players.findIdx? (fun p => p.hand.length = 0)
  else if wc.type = "capture_all" then
    s.players.findIdx? (fun p => p.hand.length = 52)
  else if wc.type = "first_to_score" then
    match wc.threshold with
    | some t => s.players.findIdx? (fun p => p.score ≥ t)
    | none => none
  else if wc.type = "high_score" then
    let threshold := wc.threshold.getD 0
    if s.players.any (fun p => p.score ≥ threshold) then find_high_winner s.players
    else none
  else if wc.type = "low_score" then
    let threshold := wc.threshold.getD 0
    if s.players.any (fun p => p.score ≥ threshold) then find_low_winner s.players
    else none
  else if wc.type = "all_hands_empty" then
    if s.players.all (fun p => p.hand.length = 0) then find_low_winner s.players
    else none
  else if wc.type = "most_captured" then
    if s.deck.length = 0 ∧ s.players.all (fun p => p.hand.length = 0) then
      find_high_winner s.players
    else none
  else none

/-- The `for wc in genome.win_conditions` loop of `check_win_conditions`:
first condition producing a winner decides; the `best_hand` branch, once
triggered, returns `find_best_poker_winner` outright (even a `None`). -/
def check_list (s : GameState) : List WinCondition → Option Nat
  | [] => none
  | wc :: rest =>
      if wc.type = "best_hand" then
        if (s.players.all (fun p => p.hand.length = 5)) ∧ s.turn ≥ s.players.length * 2 then
          find_best_poker_winner s
        else check_list s rest
      else
        match check_one s wc with
        | some w => some w
        | none => check_list s rest

/-- `check_win_conditions` of `movegen.py`. -/
def check_win_conditions (s : GameState) (genome : GameGenome) : Option Nat :=
  check_list s genome.win_conditions

/-! ## Specification-side definitions -/

/-- The conserved quantity of the spec's card-conservation property:
`|deck| + |discard| + Σ|hand_i| + |tableau cards| + |current_trick|`. -/
def totalCards (s : GameState) : Nat :=
  s.deck.length + s.discard.length + (s.players.map (·.hand.length)).sum +
    (match s.tableau with
      | none => 0
      | some piles => (piles.map (·.length)).sum) +
    s.current_trick.length

/-- Well-formedness of a state, inside which the Python interpreter never
raises while applying a move: a valid active player, at least two players,
and a claim record naming a valid claimer. -/
def wfState (s : GameState) : Prop :=
  s.active_player < s.players.length ∧ 2 ≤ s.players.length ∧
    (∀ c, s.current_claim = some c → c.claimer_id < s.players.length)

/-- A move whose Play/Discard target is one of the three locations the spec
names for card plays (deck, discard, tableau) — the `play_card` fall-through
for an opponent-hand target silently drops the card. -/
def moveTargetOk (genome : GameGenome) (move : LegalMove) : Prop :=
  match genome.turn_structure.phases.getD move.phase_index default with
  | .play _ => move.target_loc ≠ .OPPONENT_HAND
  | .discardPh _ => move.target_loc ≠ .OPPONENT_HAND
  | _ => True

/-- The betting menu the spec promises when there is no bet to match
(`to_call == 0`): CHECK always; BET if affordable, else ALL_IN if any chips
remain.  Written from the spec's words for comparison with
`generate_betting_moves`. -/
def bettingMenuNoBet (player : PlayerState) (phase : BettingPhase) : List BettingMove :=
  [⟨.CHECK, 0⟩]
    ++ (if phase.min_bet ≤ player.chips then [⟨.BET, 0⟩]
        else if 0 < player.chips then [⟨.ALL_IN, 0⟩] else [])

/-- The betting menu the spec promises when facing a bet (`to_call > 0`):
CALL if affordable, additionally RAISE if the raise is affordable and raises
remain, ALL_IN if short-stacked, always FOLD.  Written from the spec's
words for comparison with `generate_betting_moves`. -/
def bettingMenuFacingBet (s : GameState) (player : PlayerState) (phase : BettingPhase)
    (to_call : Int) : List BettingMove :=
  (if to_call ≤ player.chips then [⟨.CALL, 0⟩] else [])
    ++ (if to_call ≤ player.chips ∧ to_call + phase.min_bet ≤ player.chips ∧
          s.raise_count < phase.max_raises then [⟨.RAISE, 0⟩] else [])
    ++ (if 0 < player.chips ∧ player.chips < to_call then [⟨.ALL_IN, 0⟩] else [])
    ++ [⟨.FOLD, 0⟩]

/-- Total chips held by the players. -/
def chipsTotal (s : GameState) : Int := (s.players.map (·.chips)).sum

/-- A betting round as the external caller drives it: each step names the
acting player (the caller rotates `active_player` between moves, which
moves no chips) and applies one betting move. -/
def apply_betting_seq (phase : BettingPhase) : GameState → List (Nat × BettingMove) → GameState
  | s, [] => s
  | s, am :: rest =>
      apply_betting_seq phase
        (apply_betting_move { s with active_player := am.1 } am.2 phase) rest

/-- Every move of the sequence was produced by `generate_betting_moves` for
its acting player in the pre-move state. -/
def seqGenerated (phase : BettingPhase) : GameState → List (Nat × BettingMove) → Prop
  | _, [] => True
  | s, am :: rest =>
      am.2 ∈ generate_betting_moves s phase am.1 ∧
        seqGenerated phase (apply_betting_move { s with active_player := am.1 } am.2 phase) rest

/-- Every named actor of the sequence is a valid player index. -/
def seqActorsValid (s : GameState) (ms : List (Nat × BettingMove)) : Prop :=
  ∀ am ∈ ms, am.1 < s.players.length

/-- A win condition that is not satisfied in a state, so that the
`check_win_conditions` loop falls through to the next one. -/
def fallsThrough (s : GameState) (wc : WinCondition) : Prop :=
  (wc.type = "best_hand" →
    ¬ ((s.players.all (fun p => p.hand.length = 5)) ∧ s.turn ≥ s.players.length * 2)) ∧
  (wc.type ≠ "best_hand" → check_one s wc = none)

/-! ## Concrete instances used by counterexamples and witnesses -/

/-- A player with the given id, hand and score and default betting fields. -/
def mkPlayer (i : Nat) (h : List Card) (sc : Int) : PlayerState :=
  { player_id := i, hand := h, score := sc }

/-- Two-player one-phase trick genome. -/
def exTrickGenome : GameGenome :=
  { turn_structure := ⟨[.trick {}]⟩, win_conditions := [] }

/-- Initial two-player trick state: one card each. -/
def exTrickS0 : GameState :=
  { players := [mkPlayer 0 [⟨.TWO, .HEARTS⟩] 0, mkPlayer 1 [⟨.THREE, .HEARTS⟩] 0],
    deck := [], discard := [], turn := 0, active_player := 0 }

/-- The trick move of either player in the two-player trick game. -/
def exTrickMove : LegalMove := ⟨0, 0, .TABLEAU⟩

/-- Two-phase play genome (both phases discard-targeted plays). -/
def exTwoPhaseGenome : GameGenome :=
  { turn_structure := ⟨[.play ⟨.DISCARD, 1, 1⟩, .play ⟨.DISCARD, 1, 1⟩]⟩,
    win_conditions := [] }

/-- Two-player state for the two-phase genome, player 0 holding one card. -/
def exTwoPhaseS0 : GameState :=
  { players := [mkPlayer 0 [⟨.ACE, .HEARTS⟩] 0, mkPlayer 1 [] 0],
    deck := [], discard := [], turn := 0, active_player := 0 }

/-- Three-player state with a pending skip credit (mirrors the cap test of
`test_new_effects.py`). -/
def exSkipS : GameState :=
  { players := [mkPlayer 0 [] 0, mkPlayer 1 [] 0, mkPlayer 2 [] 0],
    deck := [], discard := [], turn := 0, active_player := 0, skip_count := 1 }

/-- A false claim: player 0 claimed rank 2 (a three) but played an ace. -/
def exFalseClaim : Claim := ⟨0, 2, 1, [⟨.ACE, .SPADES⟩]⟩

/-- State with an active false claim and two discarded cards at stake. -/
def exClaimS : GameState :=
  { players := [mkPlayer 0 [] 0, mkPlayer 1 [⟨.SIX, .CLUBS⟩] 0],
    deck := [], discard := [⟨.FOUR, .DIAMONDS⟩, ⟨.ACE, .SPADES⟩], turn := 3,
    active_player := 1, current_claim := some exFalseClaim }

/-- Betting phase with minimum bet 10 and at most 3 raises. -/
def exBetPhase : BettingPhase := ⟨10, 3⟩

/-- Two players with 100 chips each, no outstanding bet. -/
def exBetS : GameState :=
  { players := [{ mkPlayer 0 [] 0 with chips := 100 },
                { mkPlayer 1 [] 0 with chips := 100 }],
    deck := [], discard := [], turn := 0, active_player := 0 }

/-- The four-card example trick of the spec: 2♥, A♠, K♥, 3♠ in play order. -/
def exTrick4 : List TrickCard :=
  [⟨0, ⟨.TWO, .HEARTS⟩⟩, ⟨1, ⟨.ACE, .SPADES⟩⟩, ⟨2, ⟨.KING, .HEARTS⟩⟩, ⟨3, ⟨.THREE, .SPADES⟩⟩]

/-- Spades-trump high-card-wins trick phase of the spec example. -/
def exTrickPhase4 : TrickPhase :=
  { lead_suit_required := true, trump_suit := some .SPADES, high_card_wins := true }

/-- Four-player state holding the completed example trick. -/
def exTrickS4 : GameState :=
  { players := [mkPlayer 0 [] 0, mkPlayer 1 [] 0, mkPlayer 2 [] 0, mkPlayer 3 [] 0],
    deck := [], discard := [], turn := 5, active_player := 3,
    current_trick := exTrick4 }

/-- Genome holding the example trick phase. -/
def exTrickGenome4 : GameGenome :=
  { turn_structure := ⟨[.trick exTrickPhase4]⟩, win_conditions := [] }

/-- The spec's straight-flush example hand: A,K,Q,J,10 of Spades. -/
def exRoyal : List Card :=
  [⟨.ACE, .SPADES⟩, ⟨.KING, .SPADES⟩, ⟨.QUEEN, .SPADES⟩, ⟨.JACK, .SPADES⟩, ⟨.TEN, .SPADES⟩]

/-- The spec's full-house example hand: A♥ A♦ A♣ K♥ K♦. -/
def exFullHouse : List Card :=
  [⟨.ACE, .HEARTS⟩, ⟨.ACE, .DIAMONDS⟩, ⟨.ACE, .CLUBS⟩, ⟨.KING, .HEARTS⟩, ⟨.KING, .DIAMONDS⟩]

/-- The wheel straight A-2-3-4-5 (mixed suits). -/
def exWheel : List Card :=
  [⟨.ACE, .HEARTS⟩, ⟨.TWO, .CLUBS⟩, ⟨.THREE, .HEARTS⟩, ⟨.FOUR, .SPADES⟩, ⟨.FIVE, .DIAMONDS⟩]

/-- The 6-high straight 2-3-4-5-6 (mixed suits), the next-lowest straight. -/
def exSixHigh : List Card :=
  [⟨.TWO, .CLUBS⟩, ⟨.THREE, .HEARTS⟩, ⟨.FOUR, .SPADES⟩, ⟨.FIVE, .DIAMONDS⟩, ⟨.SIX, .CLUBS⟩]

/-- Representative hands of the nine poker categories, lowest to highest. -/
def exCategoryHands : List (List Card) :=
  [ [⟨.TWO, .CLUBS⟩, ⟨.FOUR, .HEARTS⟩, ⟨.SIX, .SPADES⟩, ⟨.EIGHT, .DIAMONDS⟩, ⟨.JACK, .CLUBS⟩],
    [⟨.TWO, .CLUBS⟩, ⟨.TWO, .HEARTS⟩, ⟨.FIVE, .SPADES⟩, ⟨.SEVEN, .DIAMONDS⟩, ⟨.NINE, .CLUBS⟩],
    [⟨.TWO, .CLUBS⟩, ⟨.TWO, .HEARTS⟩, ⟨.THREE, .SPADES⟩, ⟨.THREE, .DIAMONDS⟩, ⟨.FIVE, .CLUBS⟩],
    [⟨.TWO, .CLUBS⟩, ⟨.TWO, .HEARTS⟩, ⟨.TWO, .SPADES⟩, ⟨.FIVE, .DIAMONDS⟩, ⟨.SEVEN, .CLUBS⟩],
    [⟨.TWO, .CLUBS⟩, ⟨.THREE, .HEARTS⟩, ⟨.FOUR, .SPADES⟩, ⟨.FIVE, .DIAMONDS⟩, ⟨.SIX, .CLUBS⟩],
    [⟨.TWO, .HEARTS⟩, ⟨.FOUR, .HEARTS⟩, ⟨.SIX, .HEARTS⟩, ⟨.EIGHT, .HEARTS⟩, ⟨.JACK, .HEARTS⟩],
    [⟨.TWO, .CLUBS⟩, ⟨.TWO, .HEARTS⟩, ⟨.TWO, .SPADES⟩, ⟨.THREE, .DIAMONDS⟩, ⟨.THREE, .CLUBS⟩],
    [⟨.TWO, .CLUBS⟩, ⟨.TWO, .HEARTS⟩, ⟨.TWO, .SPADES⟩, ⟨.TWO, .DIAMONDS⟩, ⟨.FIVE, .CLUBS⟩],
    [⟨.TWO, .HEARTS⟩, ⟨.THREE, .HEARTS⟩, ⟨.FOUR, .HEARTS⟩, ⟨.FIVE, .HEARTS⟩, ⟨.SIX, .HEARTS⟩] ]

/-- Single-player state whose score sits at the `low_score` sentinel. -/
def exSentinelS : GameState :=
  { players := [mkPlayer 0 [] 999999], deck := [], discard := [], turn := 0,
    active_player := 0 }

/-- Genome whose only win condition is thresholdless `low_score`. -/
def exLowScoreGenome : GameGenome :=
  { turn_structure := ⟨[]⟩, win_conditions := [⟨"low_score", none⟩] }

/-- Genome whose only win condition is thresholdless `high_score`. -/
def exHighScoreGenome : GameGenome :=
  { turn_structure := ⟨[]⟩, win_conditions := [⟨"high_score", none⟩] }

/-- Fresh two-player state with both scores 0 (an initial state). -/
def exZeroS : GameState :=
  { players := [mkPlayer 0 [] 0, mkPlayer 1 [] 0], deck := [], discard := [],
    turn := 0, active_player := 0 }

/-- Two-player state with scores 5 and 3 (player 1 has the low score). -/
def exLowS : GameState :=
  { players := [mkPlayer 0 [] 5, mkPlayer 1 [] 3], deck := [], discard := [],
    turn := 0, active_player := 0 }

/-! ## Theorems -/

/-- C4: defensive no-op on malformed phase references — a move whose
`phase_index` is at or beyond the end of the phase list leaves the state
unchanged under `apply_move`, and a state whose `current_phase` is at or
beyond the end of the phase list gets no legal moves. -/
theorem apply_move_out_of_range_noop (s : GameState) (m : LegalMove) (g : GameGenome) :
    (g.turn_structure.phases.length ≤ m.phase_index → apply_move s m g = s) ∧
    (g.turn_structure.phases.length ≤ s.current_phase → generate_legal_moves s g = []) := by
  constructor
  · intro h
    unfold apply_move
    rw [if_pos h]
  · intro h
    unfold generate_legal_moves
    rw [if_pos h]

/-- Witness for C4 at a concrete out-of-range move and phase. -/
theorem apply_move_out_of_range_noop_witness :
    apply_move exTwoPhaseS0 ⟨2, 0, .DISCARD⟩ exTwoPhaseGenome = exTwoPhaseS0 ∧
    generate_legal_moves { exTwoPhaseS0 with current_phase := 2 } exTwoPhaseGenome = [] :=
  ⟨(apply_move_out_of_range_noop exTwoPhaseS0 ⟨2, 0, .DISCARD⟩ exTwoPhaseGenome).1 (by decide),
   (apply_move_out_of_range_noop { exTwoPhaseS0 with current_phase := 2 } ⟨2, 0, .DISCARD⟩
      exTwoPhaseGenome).2 (by decide)⟩

/-- C3: special effects — SKIP_NEXT and BLOCK_NEXT add their value to
`skip_count` capped at `player_count - 1`, REVERSE_DIRECTION flips the sign
of `play_direction`, EXTRA_TURN sets `skip_count` to `player_count - 1`;
every other field is unchanged (the record updates touch nothing else). -/
theorem apply_effect_skip_reverse_extra (s : GameState) (e : SpecialEffect) :
    ((e.effect_type = .SKIP_NEXT ∨ e.effect_type = .BLOCK_NEXT) →
      apply_effect s e =
        { s with skip_count := min (s.skip_count + e.value) ((s.players.length : Int) - 1) }) ∧
    (e.effect_type = .REVERSE_DIRECTION →
      apply_effect s e = { s with play_direction := -s.play_direction }) ∧
    (e.effect_type = .EXTRA_TURN →
      apply_effect s e = { s with skip_count := (s.players.length : Int) - 1 }) := by
  refine ⟨?_, ?_, ?_⟩
  · have hmin : ∀ a b : Int, (if a + b > ((s.players.length : Int) - 1)
        then ((s.players.length : Int) - 1) else a + b) =
        min (a + b) ((s.players.length : Int) - 1) := by
      intro a b
      split <;> omega
    rintro (h | h) <;> simp only [apply_effect, h, _apply_skip_next, hmin]
  · intro h
    simp only [apply_effect, h]
    congr 1
    omega
  · intro h
    simp only [apply_effect, h]

/-- Witness for C3: a value-5 skip on a 3-player state with one pending
skip caps at 2; direction flips; extra turn sets 2. -/
theorem apply_effect_skip_reverse_extra_witness :
    apply_effect exSkipS ⟨.JACK, .SKIP_NEXT, .NEXT_PLAYER, 5⟩ = { exSkipS with skip_count := 2 } ∧
    apply_effect exSkipS ⟨.ACE, .REVERSE_DIRECTION, .SELF, 1⟩ =
      { exSkipS with play_direction := -1 } ∧
    apply_effect exSkipS ⟨.ACE, .EXTRA_TURN, .SELF, 1⟩ = { exSkipS with skip_count := 2 } :=
  ⟨((apply_effect_skip_reverse_extra exSkipS _).1 (Or.inl rfl)).trans (by decide),
   ((apply_effect_skip_reverse_extra exSkipS _).2.1 rfl).trans (by decide),
   ((apply_effect_skip_reverse_extra exSkipS _).2.2 rfl).trans (by decide)⟩

/-- C7: challenge resolution — with an active claim, the claim is truthful
iff every card in `cards_played` matches the claimed rank; the loser
(challenger if truthful, otherwise the claimer) takes the whole discard
pile into hand, and the resulting state has an empty discard pile and no
current claim. -/
theorem resolve_challenge_spec (s : GameState) (challenger_id : Nat) (c : Claim)
    (hc : s.current_claim = some c) :
    resolve_challenge s challenger_id =
      (let truthful := c.cards_played.all (fun card => rank_to_index card.rank = c.claimed_rank)
       let loser_id := if truthful then challenger_id else c.claimer_id
       let loser := getPlayer s loser_id
       { s with players := s.players.set loser_id { loser with hand := loser.hand ++ s.discard },
                discard := [],
                current_claim := none }) := by
  simp only [resolve_challenge, hc]

/-- Witness for C7, the spec's own example: the claimer played an ace
against a claimed rank of three, the challenge reveals the lie, and the
claimer (player 0) takes the two-card pile while discard and claim clear. -/
theorem resolve_challenge_spec_witness :
    resolve_challenge exClaimS 1 =
      { exClaimS with
          players := [mkPlayer 0 [⟨.FOUR, .DIAMONDS⟩, ⟨.ACE, .SPADES⟩] 0,
                      mkPlayer 1 [⟨.SIX, .CLUBS⟩] 0],
          discard := [],
          current_claim := none } :=
  (resolve_challenge_spec exClaimS 1 exFalseClaim (by decide)).trans (by decide)

/-- C5: the betting move menu — no moves for a folded, all-in or broke
player; with `to_call = current_bet - player.current_bet`, at `to_call = 0`
the menu is exactly CHECK plus BET-or-ALL_IN by affordability, and at
`to_call > 0` exactly CALL / RAISE / ALL_IN / FOLD by affordability and the
raise budget (the spec-side menus `bettingMenuNoBet` and
`bettingMenuFacingBet`). -/
theorem generate_betting_moves_menu (s : GameState) (phase : BettingPhase) (pid : Nat)
    (h0 : 0 ≤ (getPlayer s pid).chips) :
    ((getPlayer s pid).has_folded = true ∨ (getPlayer s pid).is_all_in = true ∨
        (getPlayer s pid).chips = 0 →
      generate_betting_moves s phase pid = []) ∧
    ((getPlayer s pid).has_folded = false → (getPlayer s pid).is_all_in = false →
      (getPlayer s pid).chips ≠ 0 →
      (s.current_bet - (getPlayer s pid).current_bet = 0 →
        generate_betting_moves s phase pid = bettingMenuNoBet (getPlayer s pid) phase) ∧
      (0 < s.current_bet - (getPlayer s pid).current_bet →
        generate_betting_moves s phase pid =
          bettingMenuFacingBet s (getPlayer s pid) phase
            (s.current_bet - (getPlayer s pid).current_bet))) := by
  constructor
  · intro h
    unfold generate_betting_moves
    rw [if_pos]
    rcases h with h | h | h
    · exact Or.inl (by simp [h])
    · exact Or.inr (Or.inl (by simp [h]))
    · exact Or.inr (Or.inr (by omega))
  · intro hf ha hc
    have hguard : ¬ ((getPlayer s pid).has_folded = true ∨ (getPlayer s pid).is_all_in = true ∨
        (getPlayer s pid).chips ≤ 0) := by
      simp only [hf, ha]
      push_neg
      refine ⟨by simp, by simp, by omega⟩
    constructor
    · intro h0call
      unfold generate_betting_moves bettingMenuNoBet
      rw [if_neg hguard, if_pos h0call]
    · intro hpos
      unfold generate_betting_moves bettingMenuFacingBet
      rw [if_neg hguard, if_neg (by omega :
        ¬ s.current_bet - (getPlayer s pid).current_bet = 0)]
      by_cases hcall : s.current_bet - (getPlayer s pid).current_bet ≤ (getPlayer s pid).chips
      · have : ¬ ((getPlayer s pid).chips > 0 ∧
            (getPlayer s pid).chips < s.current_bet - (getPlayer s pid).current_bet) := by omega
        simp [hcall, this, List.append_assoc]
      · have h1 : ¬ ((getPlayer s pid).chips ≥ s.current_bet - (getPlayer s pid).current_bet) := by
          omega
        have h2 : ¬ (s.current_bet - (getPlayer s pid).current_bet ≤ (getPlayer s pid).chips ∧
            s.current_bet - (getPlayer s pid).current_bet + phase.min_bet ≤
              (getPlayer s pid).chips ∧ s.raise_count < phase.max_raises) := by
          omega
        have h3 : ((getPlayer s pid).chips > 0 ∧
            (getPlayer s pid).chips < s.current_bet - (getPlayer s pid).current_bet) := by omega
        simp [h1, h2, h3]

/-- Witness for C5: with 100 chips and min-bet 10, no bet to match gives
CHECK and BET; facing a 30-chip bet gives CALL, RAISE, FOLD; a folded
player gets nothing. -/
theorem generate_betting_moves_menu_witness :
    generate_betting_moves exBetS exBetPhase 0 = [⟨.CHECK, 0⟩, ⟨.BET, 0⟩] ∧
    generate_betting_moves { exBetS with current_bet := 30 } exBetPhase 1 =
      [⟨.CALL, 0⟩, ⟨.RAISE, 0⟩, ⟨.FOLD, 0⟩] ∧
    generate_betting_moves
      { exBetS with players := [{ mkPlayer 0 [] 0 with chips := 100, has_folded := true }] }
      exBetPhase 0 = [] :=
  ⟨(((generate_betting_moves_menu exBetS exBetPhase 0 (by decide)).2 (by decide) (by decide)
      (by decide)).1 (by decide)).trans (by decide),
   (((generate_betting_moves_menu { exBetS with current_bet := 30 } exBetPhase 1
      (by decide)).2 (by decide) (by decide) (by decide)).2 (by decide)).trans (by decide),
   (generate_betting_moves_menu
      { exBetS with players := [{ mkPlayer 0 [] 0 with chips := 100, has_folded := true }] }
      exBetPhase 0 (by decide)).1 (Or.inl (by decide))⟩

/-- C9: poker ranking — category dominates kickers in
`compare_poker_hands`; the wheel A-2-3-4-5 evaluates to a straight with
kicker 5 (ace as 1) and loses to the 6-high straight; representative hands
realize the nine categories in the order High Card < One Pair < Two Pair <
Three of a Kind < Straight < Flush < Full House < Four of a Kind <
Straight Flush; and the spec's A-K-Q-J-10-of-Spades beats A-A-A-K-K. -/
theorem poker_ranking :
    (∀ (r1 r2 : Nat) (k1 k2 : List Nat), r2 < r1 →
      compare_poker_hands (r1, k1) (r2, k2) = 1) ∧
    evaluate_poker_hand exWheel = (PokerHandRank.STRAIGHT, [5]) ∧
    compare_poker_hands (evaluate_poker_hand exWheel) (evaluate_poker_hand exSixHigh) = -1 ∧
    exCategoryHands.map (fun h => (evaluate_poker_hand h).1) = [0, 1, 2, 3, 4, 5, 6, 7, 8] ∧
    compare_poker_hands (evaluate_poker_hand exRoyal) (evaluate_poker_hand exFullHouse) = 1 := by
  refine ⟨?_, by decide, by decide, by decide, by decide⟩
  intro r1 r2 k1 k2 h
  unfold compare_poker_hands
  rw [if_pos h]

/-- Witness for C9's universally quantified category-dominance clause at
the straight-flush versus full-house categories. -/
theorem poker_ranking_witness :
    compare_poker_hands (PokerHandRank.STRAIGHT_FLUSH, [14])
      (PokerHandRank.FULL_HOUSE, [14, 13]) = 1 :=
  poker_ranking.1 PokerHandRank.STRAIGHT_FLUSH PokerHandRank.FULL_HOUSE [14] [14, 13]
    (by decide)

/-- C8: trick resolution — the running-winner comparison follows the spec's
rules (trump beats non-trump and never the reverse, trump pairs and
lead-suit pairs compare by rank in the `high_card_wins` direction, a
lead-suit card beats a non-lead non-trump card, a non-lead non-trump card
beats nothing), and resolving a non-empty trick awards one point per trick
card to the winner, clears the trick, makes the winner active, increments
the turn and advances the phase. -/
theorem trick_resolution :
    (∀ (lead : Suit) (trump : Option Suit) (hcw : Bool) (w c : Card),
      (trump = some c.suit → ¬ trump = some w.suit →
        beats_winner lead trump hcw w c = true) ∧
      (¬ trump = some c.suit → trump = some w.suit →
        beats_winner lead trump hcw w c = false) ∧
      (trump = some c.suit → trump = some w.suit →
        (beats_winner lead trump hcw w c = true ↔
          (if hcw then get_rank_value w < get_rank_value c
           else get_rank_value c < get_rank_value w))) ∧
      (¬ trump = some c.suit → ¬ trump = some w.suit → c.suit = lead → w.suit = lead →
        (beats_winner lead trump hcw w c = true ↔
          (if hcw then get_rank_value w < get_rank_value c
           else get_rank_value c < get_rank_value w))) ∧
      (¬ trump = some c.suit → ¬ trump = some w.suit → c.suit = lead → ¬ w.suit = lead →
        beats_winner lead trump hcw w c = true) ∧
      (¬ trump = some c.suit → ¬ trump = some w.suit → ¬ c.suit = lead →
        beats_winner lead trump hcw w c = false)) ∧
    (∀ (s : GameState) (phase : TrickPhase) (g : GameGenome),
      s.current_trick ≠ [] →
      resolve_trick s phase g =
        (let lead := (s.current_trick.headD default).card.suit
         let wid := (s.current_trick.getD
            (trick_winner_idx s.current_trick phase.trump_suit phase.high_card_wins lead)
            default).player_id
         let wp := getPlayer s wid
         { s with
             players :=
               s.players.set wid { wp with score := wp.score + s.current_trick.length },
             current_trick := [],
             active_player := wid,
             turn := s.turn + 1,
             current_phase :=
               if s.current_phase + 1 ≥ g.turn_structure.phases.length then 0
               else s.current_phase + 1 })) := by
  constructor
  · intro lead trump hcw w c
    refine ⟨?_, ?_, ?_, ?_, ?_, ?_⟩ <;> intros <;> simp_all [beats_winner]
  · intro s phase g hne
    simp only [resolve_trick, if_neg hne]

/-- `play_card` never touches turn, active player, phase, or the number of
players. -/
theorem play_card_fields (s : GameState) (pid : Nat) (ci : Int) (t : Location) :
    (play_card s pid ci t).turn = s.turn ∧
    (play_card s pid ci t).active_player = s.active_player ∧
    (play_card s pid ci t).current_phase = s.current_phase ∧
    (play_card s pid ci t).players.length = s.players.length := by
  simp only [play_card]
  split
  · simp
  · cases t <;> simp

/-- `resolve_war_battle` never touches turn, active player, phase, or the
number of players. -/
theorem resolve_war_battle_fields (s : GameState) :
    (resolve_war_battle s).turn = s.turn ∧
    (resolve_war_battle s).active_player = s.active_player ∧
    (resolve_war_battle s).current_phase = s.current_phase ∧
    (resolve_war_battle s).players.length = s.players.length := by
  rcases htab : s.tableau with _ | piles <;> simp only [resolve_war_battle, htab]
  · simp
  · split
    · simp
    · split <;> simp

/-- `draw_card` never touches turn, active player, phase, or the number of
players. -/
theorem draw_card_fields (s : GameState) (pid : Nat) (src : Location) :
    (draw_card s pid src).turn = s.turn ∧
    (draw_card s pid src).active_player = s.active_player ∧
    (draw_card s pid src).current_phase = s.current_phase ∧
    (draw_card s pid src).players.length = s.players.length := by
  cases src <;> simp only [draw_card] <;>
    first
    | (split <;> simp)
    | simp

/-- `draw_loop` never touches turn, active player, phase, or the number of
players. -/
theorem draw_loop_fields (pid : Nat) (src : Location) (n : Nat) (s : GameState) :
    (draw_loop pid src n s).turn = s.turn ∧
    (draw_loop pid src n s).active_player = s.active_player ∧
    (draw_loop pid src n s).current_phase = s.current_phase ∧
    (draw_loop pid src n s).players.length = s.players.length := by
  induction n generalizing s with
  | zero => exact ⟨rfl, rfl, rfl, rfl⟩
  | succ k ih =>
      have h1 := draw_card_fields s pid src
      have h2 := ih (draw_card s pid src)
      simp only [draw_loop]
      exact ⟨h2.1.trans h1.1, h2.2.1.trans h1.2.1, h2.2.2.1.trans h1.2.2.1,
        h2.2.2.2.trans h1.2.2.2⟩

/-- The phase/player/turn outcome of the generic advance, expressed against
the fields of any state `s` sharing turn, active player, phase and player
count with the advanced state `s1`. -/
theorem generic_advance_congr (s1 s : GameState) (g : GameGenome)
    (h : s1.turn = s.turn ∧ s1.active_player = s.active_player ∧
      s1.current_phase = s.current_phase ∧ s1.players.length = s.players.length) :
    (g.turn_structure.phases.length ≤ s.current_phase + 1 →
      (generic_advance s1 g).current_phase = 0 ∧
      (generic_advance s1 g).active_player = (s.active_player + 1) % s.players.length ∧
      (generic_advance s1 g).turn = s.turn + 1) ∧
    (s.current_phase + 1 < g.turn_structure.phases.length →
      (generic_advance s1 g).current_phase = s.current_phase + 1 ∧
      (generic_advance s1 g).active_player = s.active_player ∧
      (generic_advance s1 g).turn = s.turn) := by
  obtain ⟨ht, ha, hp, hl⟩ := h
  constructor
  · intro hwrap
    unfold generic_advance
    rw [if_pos (by omega : s1.current_phase + 1 ≥ g.turn_structure.phases.length)]
    exact ⟨rfl, by simp [ha, hl], by simp [ht]⟩
  · intro hlt
    unfold generic_advance
    rw [if_neg (by omega : ¬ s1.current_phase + 1 ≥ g.turn_structure.phases.length)]
    exact ⟨by simp [hp], ha, ht⟩

/-- C2 (amended): when `apply_move` reaches the generic advance (Play,
Discard, Draw, or claim-making moves at a valid phase index),
`current_phase` is incremented; if it then equals or exceeds the number of
phases it wraps to 0, the active player advances modulo the player count
and `turn` is incremented; otherwise the active player stays the same and
`turn` is unchanged (it counts completed turn cycles here, not plies). -/
theorem apply_move_generic_advance (s : GameState) (m : LegalMove) (g : GameGenome)
    (hpi : m.phase_index < g.turn_structure.phases.length)
    (hreach : match g.turn_structure.phases.getD m.phase_index default with
      | .play _ => True
      | .discardPh _ => True
      | .draw _ => True
      | .claimPh _ => 0 ≤ m.card_index
      | _ => False) :
    (g.turn_structure.phases.length ≤ s.current_phase + 1 →
      (apply_move s m g).current_phase = 0 ∧
      (apply_move s m g).active_player = (s.active_player + 1) % s.players.length ∧
      (apply_move s m g).turn = s.turn + 1) ∧
    (s.current_phase + 1 < g.turn_structure.phases.length →
      (apply_move s m g).current_phase = s.current_phase + 1 ∧
      (apply_move s m g).active_player = s.active_player ∧
      (apply_move s m g).turn = s.turn) := by
  unfold apply_move
  rw [if_neg (by omega : ¬ m.phase_index ≥ g.turn_structure.phases.length)]
  rcases hph : g.turn_structure.phases.getD m.phase_index default with
    pp | dp | tp | cp | drp | bp <;> rw [hph] at hreach <;> simp only [hph]
  · -- Play
    apply generic_advance_congr
    split
    · split
      · have h1 := play_card_fields s s.active_player m.card_index m.target_loc
        have h2 := resolve_war_battle_fields (play_card s s.active_player m.card_index m.target_loc)
        exact ⟨h2.1.trans h1.1, h2.2.1.trans h1.2.1, h2.2.2.1.trans h1.2.2.1,
          h2.2.2.2.trans h1.2.2.2⟩
      · exact play_card_fields s s.active_player m.card_index m.target_loc
    · exact ⟨rfl, rfl, rfl, rfl⟩
  · -- Discard
    apply generic_advance_congr
    split
    · exact play_card_fields s s.active_player m.card_index m.target_loc
    · exact ⟨rfl, rfl, rfl, rfl⟩
  · exact absurd hreach (by simp)
  · -- Claim: making a claim
    rw [if_pos hreach]
    apply generic_advance_congr
    simp only [claim_play_state]
    split <;> simp
  · -- Draw
    apply generic_advance_congr
    split
    · exact draw_loop_fields s.active_player drp.source drp.count s
    · exact ⟨rfl, rfl, rfl, rfl⟩
  · exact absurd hreach (by simp)

/-- Counterexample to C2 as stated: on a two-phase genome, a play move in
phase 0 reaches the generic advance without wrapping — the phase is
incremented but `turn` is not, contradicting "turn is ALSO incremented". -/
theorem apply_move_generic_advance_counterexample :
    (apply_move exTwoPhaseS0 ⟨0, 0, .DISCARD⟩ exTwoPhaseGenome).current_phase =
      exTwoPhaseS0.current_phase + 1 ∧
    exTwoPhaseS0.current_phase + 1 < exTwoPhaseGenome.turn_structure.phases.length ∧
    ¬ (apply_move exTwoPhaseS0 ⟨0, 0, .DISCARD⟩ exTwoPhaseGenome).turn =
        exTwoPhaseS0.turn + 1 := by
  decide

/-- Witness for the amended C2 at concrete inputs: the non-wrap case keeps
player and turn, the wrap case (same genome, phase 1) rotates the player
and increments the turn. -/
theorem apply_move_generic_advance_witness :
    ((apply_move exTwoPhaseS0 ⟨0, 0, .DISCARD⟩ exTwoPhaseGenome).current_phase = 1 ∧
      (apply_move exTwoPhaseS0 ⟨0, 0, .DISCARD⟩ exTwoPhaseGenome).active_player = 0 ∧
      (apply_move exTwoPhaseS0 ⟨0, 0, .DISCARD⟩ exTwoPhaseGenome).turn = 0) ∧
    ((apply_move { exTwoPhaseS0 with current_phase := 1 } ⟨1, 0, .DISCARD⟩
        exTwoPhaseGenome).current_phase = 0 ∧
      (apply_move { exTwoPhaseS0 with current_phase := 1 } ⟨1, 0, .DISCARD⟩
        exTwoPhaseGenome).active_player = 1 ∧
      (apply_move { exTwoPhaseS0 with current_phase := 1 } ⟨1, 0, .DISCARD⟩
        exTwoPhaseGenome).turn = 1) :=
  ⟨(apply_move_generic_advance exTwoPhaseS0 ⟨0, 0, .DISCARD⟩ exTwoPhaseGenome
      (by decide) (by exact trivial)).2 (by decide),
   (apply_move_generic_advance { exTwoPhaseS0 with current_phase := 1 } ⟨1, 0, .DISCARD⟩
      exTwoPhaseGenome (by decide) (by exact trivial)).1 (by decide)⟩

/-- Witness for C8, the spec's example: trick (2♥, A♠, K♥, 3♠) with Hearts
led, Spades trump, high-card-wins — the A♠ player (player 1) wins the
4-card trick, scores 4, becomes active, and the trick clears. -/
theorem trick_resolution_witness :
    resolve_trick exTrickS4 exTrickPhase4 exTrickGenome4 =
      { exTrickS4 with
          players := [mkPlayer 0 [] 0, mkPlayer 1 [] 4, mkPlayer 2 [] 0, mkPlayer 3 [] 0],
          current_trick := [],
          active_player := 1,
          turn := 6,
          current_phase := 0 } :=
  (trick_resolution.2 exTrickS4 exTrickPhase4 exTrickGenome4 (by decide)).trans (by decide)

/-- The highest-score loop does not move once every remaining score is at
most the running maximum. -/
theorem high_fold_stable (l : List PlayerState) (b : Int) (w : Option Nat) :
    ∀ n : Nat, (∀ p ∈ l, p.score ≤ b) →
      (l.enumFrom n).foldl high_step (b, w) = (b, w) := by
  induction l with
  | nil => intro n _; rfl
  | cons p rest ih =>
      intro n h
      have hp : high_step (b, w) (n, p) = (b, w) := by
        simp only [high_step]
        rw [if_neg (by have := h p (by simp); omega)]
      calc ((p :: rest).enumFrom n).foldl high_step (b, w)
          = (rest.enumFrom (n + 1)).foldl high_step (high_step (b, w) (n, p)) := rfl
        _ = (b, w) := by rw [hp]; exact ih (n + 1) (fun q hq => h q (by simp [hq]))

/-- The highest-score loop, started from running maximum `b` that some
remaining score strictly exceeds, ends at the first index attaining the
maximum remaining score. -/
theorem high_fold_spec (l : List PlayerState) :
    ∀ (n : Nat) (b : Int) (w : Option Nat), (∃ p ∈ l, b < p.score) →
      ∃ k, ∃ hk : k < l.length,
        ((l.enumFrom n).foldl high_step (b, w)).2 = some (n + k) ∧
        b < (l.get ⟨k, hk⟩).score ∧
        (∀ j, (hj : j < l.length) → (l.get ⟨j, hj⟩).score ≤ (l.get ⟨k, hk⟩).score) ∧
        (∀ j, (hj : j < l.length) → j < k → (l.get ⟨j, hj⟩).score < (l.get ⟨k, hk⟩).score) := by
  induction l with
  | nil => intro n b w hex; simp at hex
  | cons p rest ih =>
      intro n b w hex
      have hstep : ((p :: rest).enumFrom n).foldl high_step (b, w)
          = (rest.enumFrom (n + 1)).foldl high_step (high_step (b, w) (n, p)) := rfl
      by_cases hp : b < p.score
      · have hsv : high_step (b, w) (n, p) = (p.score, some n) := by
          simp only [high_step]
          rw [if_pos (by omega)]
        by_cases hrest : ∃ q ∈ rest, p.score < q.score
        · obtain ⟨k', hk', h2, hb, hle, hlt⟩ := ih (n + 1) p.score (some n) hrest
          simp only [List.get_eq_getElem] at hb hle hlt
          refine ⟨k' + 1, Nat.succ_lt_succ hk', ?_, ?_, ?_, ?_⟩
          · rw [hstep, hsv, h2]
            congr 1
            omega
          · simp only [List.get_eq_getElem, List.getElem_cons_succ]
            omega
          · intro j hj
            cases j with
            | zero =>
                simp only [List.get_eq_getElem, List.getElem_cons_zero, List.getElem_cons_succ]
                omega
            | succ j' =>
                simpa using hle j' (Nat.lt_of_succ_lt_succ hj)
          · intro j hj hjk
            cases j with
            | zero =>
                simp only [List.get_eq_getElem, List.getElem_cons_zero, List.getElem_cons_succ]
                omega
            | succ j' =>
                simpa using hlt j' (Nat.lt_of_succ_lt_succ hj) (Nat.lt_of_succ_lt_succ hjk)
        · push_neg at hrest
          refine ⟨0, Nat.succ_pos _, ?_, by simpa using hp, ?_, ?_⟩
          · rw [hstep, hsv, high_fold_stable rest p.score (some n) (n + 1) hrest]
            simp
          · intro j hj
            cases j with
            | zero => simp
            | succ j' =>
                have := hrest (rest.get ⟨j', Nat.lt_of_succ_lt_succ hj⟩)
                  (List.get_mem rest j' (Nat.lt_of_succ_lt_succ hj))
                simpa using this
          · intro j hj hjk
            omega
      · have hsv : high_step (b, w) (n, p) = (b, w) := by
          simp only [high_step]
          rw [if_neg (by omega)]
        have hex' : ∃ q ∈ rest, b < q.score := by
          obtain ⟨q, hq, hbq⟩ := hex
          rcases List.mem_cons.mp hq with rfl | hq'
          · omega
          · exact ⟨q, hq', hbq⟩
        obtain ⟨k', hk', h2, hb, hle, hlt⟩ := ih (n + 1) b w hex'
        simp only [List.get_eq_getElem] at hb hle hlt
        refine ⟨k' + 1, Nat.succ_lt_succ hk', ?_, ?_, ?_, ?_⟩
        · rw [hstep, hsv, h2]
          congr 1
          omega
        · simp only [List.get_eq_getElem, List.getElem_cons_succ]
          omega
        · intro j hj
          cases j with
          | zero =>
              simp only [List.get_eq_getElem, List.getElem_cons_zero, List.getElem_cons_succ]
              omega
          | succ j' => simpa using hle j' (Nat.lt_of_succ_lt_succ hj)
        · intro j hj hjk
          cases j with
          | zero =>
              simp only [List.get_eq_getElem, List.getElem_cons_zero, List.getElem_cons_succ]
              omega
          | succ j' => simpa using hlt j' (Nat.lt_of_succ_lt_succ hj) (Nat.lt_of_succ_lt_succ hjk)

/-- The lowest-score loop does not move once every remaining score is at
least the running minimum. -/
theorem low_fold_stable (l : List PlayerState) (b : Int) (w : Option Nat) :
    ∀ n : Nat, (∀ p ∈ l, b ≤ p.score) →
      (l.enumFrom n).foldl low_step (b, w) = (b, w) := by
  induction l with
  | nil => intro n _; rfl
  | cons p rest ih =>
      intro n h
      have hp : low_step (b, w) (n, p) = (b, w) := by
        simp only [low_step]
        rw [if_neg (by have := h p (by simp); omega)]
      calc ((p :: rest).enumFrom n).foldl low_step (b, w)
          = (rest.enumFrom (n + 1)).foldl low_step (low_step (b, w) (n, p)) := rfl
        _ = (b, w) := by rw [hp]; exact ih (n + 1) (fun q hq => h q (by simp [hq]))

/-- The lowest-score loop, started from running minimum `b` that some
remaining score strictly undercuts, ends at the first index attaining the
minimum remaining score. -/
theorem low_fold_spec (l : List PlayerState) :
    ∀ (n : Nat) (b : Int) (w : Option Nat), (∃ p ∈ l, p.score < b) →
      ∃ k, ∃ hk : k < l.length,
        ((l.enumFrom n).foldl low_step (b, w)).2 = some (n + k) ∧
        (l.get ⟨k, hk⟩).score < b ∧
        (∀ j, (hj : j < l.length) → (l.get ⟨k, hk⟩).score ≤ (l.get ⟨j, hj⟩).score) ∧
        (∀ j, (hj : j < l.length) → j < k → (l.get ⟨k, hk⟩).score < (l.get ⟨j, hj⟩).score) := by
  induction l with
  | nil => intro n b w hex; simp at hex
  | cons p rest ih =>
      intro n b w hex
      have hstep : ((p :: rest).enumFrom n).foldl low_step (b, w)
          = (rest.enumFrom (n + 1)).foldl low_step (low_step (b, w) (n, p)) := rfl
      by_cases hp : p.score < b
      · have hsv : low_step (b, w) (n, p) = (p.score, some n) := by
          simp only [low_step]
          rw [if_pos (by omega)]
        by_cases hrest : ∃ q ∈ rest, q.score < p.score
        · obtain ⟨k', hk', h2, hb, hle, hlt⟩ := ih (n + 1) p.score (some n) hrest
          simp only [List.get_eq_getElem] at hb hle hlt
          refine ⟨k' + 1, Nat.succ_lt_succ hk', ?_, ?_, ?_, ?_⟩
          · rw [hstep, hsv, h2]
            congr 1
            omega
          · simp only [List.get_eq_getElem, List.getElem_cons_succ]
            omega
          · intro j hj
            cases j with
            | zero =>
                simp only [List.get_eq_getElem, List.getElem_cons_zero, List.getElem_cons_succ]
                omega
            | succ j' => simpa using hle j' (Nat.lt_of_succ_lt_succ hj)
          · intro j hj hjk
            cases j with
            | zero =>
                simp only [List.get_eq_getElem, List.getElem_cons_zero, List.getElem_cons_succ]
                omega
            | succ j' => simpa using hlt j' (Nat.lt_of_succ_lt_succ hj) (Nat.lt_of_succ_lt_succ hjk)
        · push_neg at hrest
          refine ⟨0, Nat.succ_pos _, ?_, by simpa using hp, ?_, ?_⟩
          · rw [hstep, hsv, low_fold_stable rest p.score (some n) (n + 1) hrest]
            simp
          · intro j hj
            cases j with
            | zero => simp
            | succ j' =>
                have := hrest (rest.get ⟨j', Nat.lt_of_succ_lt_succ hj⟩)
                  (List.get_mem rest j' (Nat.lt_of_succ_lt_succ hj))
                simpa using this
          · intro j hj hjk
            omega
      · have hsv : low_step (b, w) (n, p) = (b, w) := by
          simp only [low_step]
          rw [if_neg (by omega)]
        have hex' : ∃ q ∈ rest, q.score < b := by
          obtain ⟨q, hq, hbq⟩ := hex
          rcases List.mem_cons.mp hq with rfl | hq'
          · omega
          · exact ⟨q, hq', hbq⟩
        obtain ⟨k', hk', h2, hb, hle, hlt⟩ := ih (n + 1) b w hex'
        simp only [List.get_eq_getElem] at hb hle hlt
        refine ⟨k' + 1, Nat.succ_lt_succ hk', ?_, ?_, ?_, ?_⟩
        · rw [hstep, hsv, h2]
          congr 1
          omega
        · simp only [List.get_eq_getElem, List.getElem_cons_succ]
          omega
        · intro j hj
          cases j with
          | zero =>
              simp only [List.get_eq_getElem, List.getElem_cons_zero, List.getElem_cons_succ]
              omega
          | succ j' => simpa using hle j' (Nat.lt_of_succ_lt_succ hj)
        · intro j hj hjk
          cases j with
          | zero =>
              simp only [List.get_eq_getElem, List.getElem_cons_zero, List.getElem_cons_succ]
              omega
          | succ j' => simpa using hlt j' (Nat.lt_of_succ_lt_succ hj) (Nat.lt_of_succ_lt_succ hjk)

/-- A prefix of win conditions that all fall through can be dropped from
the `check_win_conditions` loop. -/
theorem check_list_drop_prefix (s : GameState) (pre l2 : List WinCondition)
    (h : ∀ wc ∈ pre, fallsThrough s wc) :
    check_list s (pre ++ l2) = check_list s l2 := by
  induction pre with
  | nil => rfl
  | cons wc rest ih =>
      have hwc := h wc (by simp)
      have hrest : ∀ w ∈ rest, fallsThrough s w := fun w hw => h w (by simp [hw])
      simp only [List.cons_append, check_list]
      by_cases hbh : wc.type = "best_hand"
      · rw [if_pos hbh, if_neg (hwc.1 hbh)]
        exact ih hrest
      · rw [if_neg hbh, hwc.2 hbh]
        exact ih hrest

/-- C10 (amended): when the first win condition that does not fall through
is `high_score` (or `low_score`) with threshold `None` or 0 and every score
is non-negative, the trigger `any(score >= 0)` holds vacuously.  For
`high_score`, `check_win_conditions` immediately returns the
highest-scoring player with the lowest index on ties — already in the
all-zero initial state.  For `low_score` the same holds for the
lowest-scoring player, but only provided some player's score is below the
999999 sentinel that seeds the minimum loop; otherwise the loop finds no
winner and the condition falls through. -/
theorem check_win_high_low_trigger (s : GameState) (g : GameGenome)
    (pre : List WinCondition) (wc : WinCondition) (rest : List WinCondition)
    (hsplit : g.win_conditions = pre ++ wc :: rest)
    (hpre : ∀ w ∈ pre, fallsThrough s w)
    (hth : wc.threshold = none ∨ wc.threshold = some 0)
    (hne : s.players ≠ [])
    (hnn : ∀ p ∈ s.players, 0 ≤ p.score) :
    (wc.type = "high_score" →
      ∃ w, ∃ hw : w < s.players.length,
        check_win_conditions s g = some w ∧
        (∀ j, (hj : j < s.players.length) →
          (s.players.get ⟨j, hj⟩).score ≤ (s.players.get ⟨w, hw⟩).score) ∧
        (∀ j, (hj : j < s.players.length) → j < w →
          (s.players.get ⟨j, hj⟩).score < (s.players.get ⟨w, hw⟩).score)) ∧
    (wc.type = "low_score" → (∃ p ∈ s.players, p.score < 999999) →
      ∃ w, ∃ hw : w < s.players.length,
        check_win_conditions s g = some w ∧
        (∀ j, (hj : j < s.players.length) →
          (s.players.get ⟨w, hw⟩).score ≤ (s.players.get ⟨j, hj⟩).score) ∧
        (∀ j, (hj : j < s.players.length) → j < w →
          (s.players.get ⟨w, hw⟩).score < (s.players.get ⟨j, hj⟩).score)) := by
  have hbase : check_win_conditions s g = check_list s (wc :: rest) := by
    unfold check_win_conditions
    rw [hsplit]
    exact check_list_drop_prefix s pre (wc :: rest) hpre
  have hth0 : wc.threshold.getD 0 = 0 := by rcases hth with h | h <;> simp [h]
  have hany : s.players.any (fun p => decide (p.score ≥ wc.threshold.getD 0)) = true := by
    rw [List.any_eq_true]
    obtain ⟨p, hp⟩ := List.exists_mem_of_ne_nil s.players hne
    exact ⟨p, hp, by rw [hth0]; simpa using hnn p hp⟩
  constructor
  · intro htype
    have hcl : check_list s (wc :: rest) = find_high_winner s.players := by
      simp only [check_list, htype]
      rw [if_neg (by decide : ¬ ("high_score" : String) = "best_hand")]
      have hone : check_one s wc = find_high_winner s.players := by
        simp only [check_one, htype]
        rw [if_neg (by decide : ¬ ("high_score" : String) = "empty_hand"),
          if_neg (by decide : ¬ ("high_score" : String) = "capture_all"),
          if_neg (by decide : ¬ ("high_score" : String) = "first_to_score"),
          if_pos trivial]
        simp only [ge_iff_le, hany, if_true]
      rw [hone]
      obtain ⟨p, hp⟩ := List.exists_mem_of_ne_nil s.players hne
      obtain ⟨k, hk, h2, _, _, _⟩ := high_fold_spec s.players 0 (-1) none
        ⟨p, hp, by have := hnn p hp; omega⟩
      simp only [find_high_winner, List.enum]
      rw [h2]
    obtain ⟨k, hk, h2, _, hle, hlt⟩ := high_fold_spec s.players 0 (-1) none
      (by obtain ⟨p, hp⟩ := List.exists_mem_of_ne_nil s.players hne
          exact ⟨p, hp, by have := hnn p hp; omega⟩)
    refine ⟨k, hk, ?_, hle, hlt⟩
    rw [hbase, hcl]
    simp only [find_high_winner, List.enum]
    rw [h2]
    simp
  · intro htype hsen
    have hcl : check_list s (wc :: rest) =
        match find_low_winner s.players with
        | some w => some w
        | none => check_list s rest := by
      simp only [check_list, htype]
      rw [if_neg (by decide : ¬ ("low_score" : String) = "best_hand")]
      have hone : check_one s wc = find_low_winner s.players := by
        simp only [check_one, htype]
        rw [if_neg (by decide : ¬ ("low_score" : String) = "empty_hand"),
          if_neg (by decide : ¬ ("low_score" : String) = "capture_all"),
          if_neg (by decide : ¬ ("low_score" : String) = "first_to_score"),
          if_neg (by decide : ¬ ("low_score" : String) = "high_score"),
          if_pos trivial]
        simp only [ge_iff_le, hany, if_true]
      rw [hone]
    obtain ⟨q, hq, hq9⟩ := hsen
    obtain ⟨k, hk, h2, _, hle, hlt⟩ := low_fold_spec s.players 0 999999 none ⟨q, hq, hq9⟩
    refine ⟨k, hk, ?_, hle, hlt⟩
    rw [hbase, hcl]
    have : find_low_winner s.players = some k := by
      simp only [find_low_winner, List.enum]
      rw [h2]
      simp
    rw [this]

/-- Counterexample to C10 as stated: a single player whose non-negative
score equals the 999999 sentinel makes the thresholdless `low_score`
condition return no winner at all. -/
theorem check_win_low_sentinel_counterexample :
    check_win_conditions exSentinelS exLowScoreGenome = none ∧
    (∀ p ∈ exSentinelS.players, 0 ≤ p.score) ∧
    exLowScoreGenome.win_conditions = [⟨"low_score", none⟩] := by
  decide

/-- Witness for the amended C10: the all-zero initial two-player state wins
for player 0 under thresholdless `high_score`, and scores (5, 3) win for
player 1 under thresholdless `low_score`. -/
theorem check_win_high_low_trigger_witness :
    check_win_conditions exZeroS exHighScoreGenome = some 0 ∧
    check_win_conditions exLowS exLowScoreGenome = some 1 := by
  constructor
  · obtain ⟨w, hw, hcheck, hle, hlt⟩ :=
      (check_win_high_low_trigger exZeroS exHighScoreGenome [] ⟨"high_score", none⟩ []
        rfl (by simp) (Or.inl rfl) (by decide) (by decide)).1 rfl
    have hw2 : w < 2 := hw
    have hw0 : w = 0 := by
      interval_cases w
      · rfl
      · have h := hlt 0 (by decide) (by decide)
        simp [exZeroS, mkPlayer] at h
    rw [hw0] at hcheck
    exact hcheck
  · obtain ⟨w, hw, hcheck, hle, hlt⟩ :=
      (check_win_high_low_trigger exLowS exLowScoreGenome [] ⟨"low_score", none⟩ []
        rfl (by simp) (Or.inl rfl) (by decide) (by decide)).2 rfl
        ⟨mkPlayer 0 [] 5, by decide, by decide⟩
    have hw2 : w < 2 := hw
    have hw1 : w = 1 := by
      interval_cases w
      · have h := hle 1 (by decide)
        simp [exLowS, mkPlayer] at h
      · rfl
    rw [hw1] at hcheck
    exact hcheck

/-- `getPlayer` at a valid index is plain list indexing. -/
theorem getPlayer_eq (s : GameState) (i : Nat) (h : i < s.players.length) :
    getPlayer s i = s.players[i] := by
  simp [getPlayer, List.getD, List.getElem?_eq_getElem, h]

/-- `getPlayer` out of range yields the default player (the Python raises
there; theorems exclude this by hypothesis). -/
theorem getPlayer_out_of_range (s : GameState) (i : Nat) (h : s.players.length ≤ i) :
    getPlayer s i = default := by
  simp [getPlayer, List.getD, List.getElem?_eq_none h]

/-- Overwriting one entry shifts a natural sum by the difference at that
position, stated additively. -/
theorem sum_set_nat (l : List Nat) :
    ∀ (i : Nat) (a : Nat) (hi : i < l.length), (l.set i a).sum + l[i] = l.sum + a := by
  induction l with
  | nil => intro i a hi; simp at hi
  | cons x rest ih =>
      intro i a hi
      cases i with
      | zero => simp; omega
      | succ i' =>
          have hi' : i' < rest.length := Nat.lt_of_succ_lt_succ hi
          simp only [List.set_cons_succ, List.sum_cons, List.getElem_cons_succ]
          have := ih i' a hi'
          omega

/-- Replacing one player changes the mapped hand-length sum by the
difference at that position. -/
theorem map_sum_set_nat (f : PlayerState → Nat) (ps : List PlayerState) (i : Nat)
    (q : PlayerState) (hi : i < ps.length) :
    ((ps.set i q).map f).sum + f ps[i] = (ps.map f).sum + f q := by
  rw [List.map_set]
  have hi2 : i < (ps.map f).length := by simpa using hi
  have h1 : (ps.map f).get ⟨i, hi2⟩ = f ps[i] := List.getElem_map f
  have := sum_set_nat (ps.map f) i (f q) hi2
  simp only [List.get_eq_getElem] at h1
  omega

/-- Replacing one player changes a mapped integer sum by the difference at
that position. -/
theorem map_sum_set_int (f : PlayerState → Int) (ps : List PlayerState) :
    ∀ (i : Nat) (q : PlayerState) (hi : i < ps.length),
      ((ps.set i q).map f).sum = (ps.map f).sum - f ps[i] + f q := by
  induction ps with
  | nil => intro i q hi; simp at hi
  | cons p rest ih =>
      intro i q hi
      cases i with
      | zero => simp; ring
      | succ i' =>
          have hi' : i' < rest.length := Nat.lt_of_succ_lt_succ hi
          simp only [List.set_cons_succ, List.map_cons, List.sum_cons, List.getElem_cons_succ]
          rw [ih i' q hi']
          ring

/-- `apply_betting_move` keeps the player count. -/
theorem apply_betting_move_length (s : GameState) (mv : BettingMove) (phase : BettingPhase) :
    (apply_betting_move s mv phase).players.length = s.players.length := by
  cases hact : mv.action <;> simp [apply_betting_move, hact]

/-- One betting move moves chips only between the acting player's stack and
the pot: `pot + Σ chips` is invariant. -/
theorem apply_betting_move_conserves (s : GameState) (mv : BettingMove) (phase : BettingPhase)
    (ha : s.active_player < s.players.length) :
    (apply_betting_move s mv phase).pot + chipsTotal (apply_betting_move s mv phase) =
      s.pot + chipsTotal s := by
  have hgp : getPlayer s s.active_player = s.players[s.active_player] := by
    simp [getPlayer, List.getD, List.getElem?_eq_getElem, ha]
  cases hact : mv.action
  · simp [apply_betting_move, hact]
  all_goals (
    simp only [apply_betting_move, hact, chipsTotal]
    rw [map_sum_set_int (fun p => p.chips) s.players s.active_player _ ha]
    simp only [hgp]
    ring)

/-- Moves produced by `generate_betting_moves` are affordable: BET implies
the minimum bet is covered, CALL implies the amount to call is covered,
RAISE implies call-plus-minimum is covered. -/
theorem generated_move_bounds (s : GameState) (phase : BettingPhase) (a : Nat)
    (mv : BettingMove) (hmem : mv ∈ generate_betting_moves s phase a) :
    (mv.action = .BET → phase.min_bet ≤ (getPlayer s a).chips) ∧
    (mv.action = .CALL →
      s.current_bet - (getPlayer s a).current_bet ≤ (getPlayer s a).chips) ∧
    (mv.action = .RAISE →
      s.current_bet - (getPlayer s a).current_bet + phase.min_bet ≤ (getPlayer s a).chips) := by
  simp only [generate_betting_moves] at hmem
  split at hmem
  · simp at hmem
  · refine ⟨?_, ?_, ?_⟩ <;> intro hact <;> split at hmem <;>
      split_ifs at hmem <;>
      simp only [List.mem_append, List.mem_singleton, List.mem_cons,
        List.not_mem_nil, or_false, false_or, or_assoc] at hmem <;>
      (rcases hmem with rfl | rfl | rfl | rfl <;> simp_all)

/-- A generated betting move keeps every chip stack non-negative. -/
theorem apply_betting_move_safe (s : GameState) (phase : BettingPhase) (a : Nat)
    (mv : BettingMove) (hmem : mv ∈ generate_betting_moves s phase a)
    (hall : ∀ p ∈ s.players, 0 ≤ p.chips) :
    ∀ p ∈ (apply_betting_move { s with active_player := a } mv phase).players, 0 ≤ p.chips := by
  have hbounds := generated_move_bounds s phase a mv hmem
  have hga' : 0 ≤ (getPlayer s a).chips := by
    by_cases h : a < s.players.length
    · have hgp : getPlayer s a = s.players[a] := by
        simp [getPlayer, List.getD, List.getElem?_eq_getElem, h]
      rw [hgp]
      exact hall _ (s.players.getElem_mem h)
    · have hgp : getPlayer s a = default := by
        simp [getPlayer, List.getD,
          List.getElem?_eq_none (by omega : s.players.length ≤ a)]
      rw [hgp]
      decide
  intro p hp
  cases hact : mv.action <;> simp only [apply_betting_move, hact] at hp
  · exact hall p hp
  · rcases List.mem_or_eq_of_mem_set hp with h | rfl
    · exact hall p h
    · have hb := hbounds.1 hact
      show (0 : Int) ≤ (getPlayer s a).chips - phase.min_bet
      omega
  · rcases List.mem_or_eq_of_mem_set hp with h | rfl
    · exact hall p h
    · have hb := hbounds.2.1 hact
      show (0 : Int) ≤ (getPlayer s a).chips -
        max 0 (s.current_bet - (getPlayer s a).current_bet)
      omega
  · rcases List.mem_or_eq_of_mem_set hp with h | rfl
    · exact hall p h
    · have hb := hbounds.2.2 hact
      show (0 : Int) ≤ (getPlayer s a).chips -
        (s.current_bet - (getPlayer s a).current_bet + phase.min_bet)
      omega
  · rcases List.mem_or_eq_of_mem_set hp with h | rfl
    · exact hall p h
    · show (0 : Int) ≤ 0
      decide
  · rcases List.mem_or_eq_of_mem_set hp with h | rfl
    · exact hall p h
    · show (0 : Int) ≤ (getPlayer s a).chips
      exact hga'

/-- C6: betting conservation and chip safety — over any sequence of betting
moves (each step naming its actor), the pot's increase equals the total
chips removed from the players' stacks (`pot + Σ chips` is invariant); and
when every applied move was produced by `generate_betting_moves` for the
acting player in the pre-move state, no chip stack ever becomes negative. -/
theorem betting_conservation_and_safety :
    (∀ (phase : BettingPhase) (s : GameState) (ms : List (Nat × BettingMove)),
      seqActorsValid s ms →
      (apply_betting_seq phase s ms).pot + chipsTotal (apply_betting_seq phase s ms) =
        s.pot + chipsTotal s) ∧
    (∀ (phase : BettingPhase) (s : GameState) (ms : List (Nat × BettingMove)),
      seqActorsValid s ms → seqGenerated phase s ms → (∀ p ∈ s.players, 0 ≤ p.chips) →
      ∀ p ∈ (apply_betting_seq phase s ms).players, 0 ≤ p.chips) := by
  constructor
  · intro phase s ms
    induction ms generalizing s with
    | nil => intro _; rfl
    | cons am rest ih =>
        intro hval
        have ha : am.1 < s.players.length := hval am (by simp)
        have hstep := apply_betting_move_conserves { s with active_player := am.1 } am.2 phase
          (by simpa using ha)
        have hlen := apply_betting_move_length { s with active_player := am.1 } am.2 phase
        have hval' : seqActorsValid (apply_betting_move { s with active_player := am.1 } am.2 phase) rest := by
          intro bm hbm
          have := hval bm (by simp [hbm])
          simpa [hlen] using this
        calc (apply_betting_seq phase s (am :: rest)).pot +
              chipsTotal (apply_betting_seq phase s (am :: rest))
            = (apply_betting_move { s with active_player := am.1 } am.2 phase).pot +
              chipsTotal (apply_betting_move { s with active_player := am.1 } am.2 phase) :=
              ih _ hval'
          _ = s.pot + chipsTotal s := hstep
  · intro phase s ms
    induction ms generalizing s with
    | nil => intro _ _ hall; exact hall
    | cons am rest ih =>
        intro hval hgen hall
        have hlen := apply_betting_move_length { s with active_player := am.1 } am.2 phase
        have hval' : seqActorsValid (apply_betting_move { s with active_player := am.1 } am.2 phase) rest := by
          intro bm hbm
          have := hval bm (by simp [hbm])
          simpa [hlen] using this
        exact ih _ hval' hgen.2 (apply_betting_move_safe s phase am.1 am.2 hgen.1 hall)

/-- Witness for C6 at a concrete betting round: player 0 bets 10, player 1
calls; the pot plus remaining stacks is the original 200, and both stacks
stay non-negative. -/
theorem betting_conservation_and_safety_witness :
    (apply_betting_seq exBetPhase exBetS [(0, ⟨.BET, 0⟩), (1, ⟨.CALL, 0⟩)]).pot +
      chipsTotal (apply_betting_seq exBetPhase exBetS [(0, ⟨.BET, 0⟩), (1, ⟨.CALL, 0⟩)]) =
      exBetS.pot + chipsTotal exBetS ∧
    (∀ p ∈ (apply_betting_seq exBetPhase exBetS
        [(0, ⟨.BET, 0⟩), (1, ⟨.CALL, 0⟩)]).players, 0 ≤ p.chips) :=
  ⟨betting_conservation_and_safety.1 exBetPhase exBetS [(0, ⟨.BET, 0⟩), (1, ⟨.CALL, 0⟩)]
      (by intro am ham; fin_cases ham <;> decide),
   betting_conservation_and_safety.2 exBetPhase exBetS [(0, ⟨.BET, 0⟩), (1, ⟨.CALL, 0⟩)]
      (by intro am ham; fin_cases ham <;> decide)
      (by exact ⟨by decide, by decide, trivial⟩) (by decide)⟩

/-- Replacing two distinct players changes the mapped hand-length sum by
the differences at the two positions. -/
theorem map_sum_set2_nat (f : PlayerState → Nat) (ps : List PlayerState) (i j : Nat)
    (q r : PlayerState) (hij : i ≠ j) (hi : i < ps.length) (hj : j < ps.length) :
    (((ps.set i q).set j r).map f).sum + f ps[i] + f ps[j]
      = (ps.map f).sum + f q + f r := by
  have h1 := map_sum_set_nat f ps i q hi
  have hj2 : j < (ps.set i q).length := by simpa using hj
  have h2 := map_sum_set_nat f (ps.set i q) j r hj2
  have hget : (ps.set i q)[j] = ps[j] := List.getElem_set_ne (by omega) _
  rw [hget] at h2
  omega

/-- Replacing one player by one with the same hand length keeps the
hand-length sum. -/
theorem map_sum_set_same_hand (ps : List PlayerState) (i : Nat) (q : PlayerState)
    (hq : q.hand.length = (ps.getD i default).hand.length) :
    ((ps.set i q).map (fun p => p.hand.length)).sum
      = (ps.map (fun p => p.hand.length)).sum := by
  by_cases hi : i < ps.length
  · have hgd : ps.getD i default = ps[i] := by
      simp [List.getD, List.getElem?_eq_getElem, hi]
    rw [hgd] at hq
    have hsum : ((ps.set i q).map (fun p => p.hand.length)).sum + (ps[i]).hand.length
        = (ps.map (fun p => p.hand.length)).sum + q.hand.length :=
      map_sum_set_nat (fun p => p.hand.length) ps i q hi
    rw [hq] at hsum
    have key : ∀ (n : Nat),
        n + (ps[i]).hand.length
          = (ps.map (fun p => p.hand.length)).sum + (ps[i]).hand.length →
        n = (ps.map (fun p => p.hand.length)).sum := by
      intro n h
      omega
    exact key _ hsum
  · rw [List.set_eq_of_length_le (by omega)]

/-- Appending cards to one player's hand adds their count to the
hand-length sum. -/
theorem map_sum_set_append (ps : List PlayerState) (i : Nat) (extra : List Card)
    (hi : i < ps.length) :
    ((ps.set i { ps[i] with hand := (ps[i]).hand ++ extra }).map
        (fun p => p.hand.length)).sum
      = (ps.map (fun p => p.hand.length)).sum + extra.length := by
  have hsum : ((ps.set i { ps[i] with hand := (ps[i]).hand ++ extra }).map
        (fun p => p.hand.length)).sum + (ps[i]).hand.length
      = (ps.map (fun p => p.hand.length)).sum + ((ps[i]).hand ++ extra).length :=
    map_sum_set_nat (fun p => p.hand.length) ps i
      { ps[i] with hand := (ps[i]).hand ++ extra } hi
  simp only [List.length_append] at hsum
  have key : ∀ (n : Nat),
      n + (ps[i]).hand.length
        = (ps.map (fun p => p.hand.length)).sum + ((ps[i]).hand.length + extra.length) →
      n = (ps.map (fun p => p.hand.length)).sum + extra.length := by
    intro n h
    omega
  exact key _ hsum

/-- The generic advance moves no cards. -/
theorem totalCards_generic_advance (s : GameState) (g : GameGenome) :
    totalCards (generic_advance s g) = totalCards s := by
  simp only [generic_advance]
  split <;> rfl

/-- `play_card` to deck, discard or tableau conserves the card total (the
opponent-hand fall-through, excluded here, drops the card). -/
theorem totalCards_play_card (s : GameState) (pid : Nat) (ci : Int) (t : Location)
    (ht : t ≠ Location.OPPONENT_HAND) :
    totalCards (play_card s pid ci t) = totalCards s := by
  simp only [play_card]
  split
  · rfl
  case isFalse hg =>
    have h0 : 0 ≤ ci := by omega
    have hlt : ci < ((getPlayer s pid).hand.length : Int) := by omega
    have hpid : pid < s.players.length := by
      by_contra hble
      rw [getPlayer_out_of_range s pid (by omega)] at hlt
      have hd : ((default : PlayerState)).hand.length = 0 := rfl
      omega
    rw [getPlayer_eq s pid hpid] at hlt ⊢
    have hidx : ci.toNat < (s.players[pid]).hand.length := by omega
    have hsum := map_sum_set_nat (fun p => p.hand.length) s.players pid
      { s.players[pid] with hand := (s.players[pid]).hand.eraseIdx ci.toNat } hpid
    simp only at hsum
    have herase : ((s.players[pid]).hand.eraseIdx ci.toNat).length
        = (s.players[pid]).hand.length - 1 := List.length_eraseIdx_of_lt hidx
    cases t
    · simp only [totalCards, List.length_append, List.length_cons, List.length_nil]
      omega
    · simp only [totalCards, List.length_append, List.length_cons, List.length_nil]
      omega
    · rcases htab : s.tableau with _ | piles
      · simp only [totalCards, htab, List.length_append, List.length_cons, List.length_nil,
          List.headD, List.tail, List.map_cons, List.map_nil, List.sum_cons, List.sum_nil]
        omega
      · rcases piles with _ | ⟨pl0, pls⟩
        · simp only [totalCards, htab, List.length_append, List.length_cons, List.length_nil,
            List.headD, List.tail, List.map_cons, List.map_nil, List.sum_cons, List.sum_nil]
          omega
        · simp only [totalCards, htab, List.length_append, List.length_cons, List.length_nil,
            List.headD, List.tail, List.map_cons, List.sum_cons]
          omega
    · exact absurd rfl ht

/-- `draw_card` conserves the card total (for a valid player, and at least
two players when stealing from the next hand, where the Python would
otherwise duplicate the card). -/
theorem totalCards_draw_card (s : GameState) (pid : Nat) (src : Location)
    (hpid : pid < s.players.length)
    (hop : src = Location.OPPONENT_HAND → 2 ≤ s.players.length) :
    totalCards (draw_card s pid src) = totalCards s := by
  cases src
  · simp only [draw_card]
    split
    · rfl
    case isFalse hne =>
      rw [getPlayer_eq s pid hpid]
      have hsum := map_sum_set_nat (fun p => p.hand.length) s.players pid
        { s.players[pid] with hand := (s.players[pid]).hand ++ [s.deck.headD default] } hpid
      simp only [List.length_append, List.length_cons, List.length_nil] at hsum
      have hdl : s.deck.tail.length = s.deck.length - 1 := by simp
      have hdne : s.deck.length ≠ 0 := by
        intro h
        exact hne (List.eq_nil_of_length_eq_zero h)
      simp only [totalCards]
      omega
  · simp only [draw_card]
    split
    · rfl
    case isFalse hne =>
      rw [getPlayer_eq s pid hpid]
      have hsum := map_sum_set_nat (fun p => p.hand.length) s.players pid
        { s.players[pid] with hand := (s.players[pid]).hand ++ [s.discard.getLastD default] }
        hpid
      simp only [List.length_append, List.length_cons, List.length_nil] at hsum
      have hdl : s.discard.dropLast.length = s.discard.length - 1 := by simp
      have hdne : s.discard.length ≠ 0 := by
        intro h
        exact hne (List.eq_nil_of_length_eq_zero h)
      simp only [totalCards]
      omega
  · rfl
  · have h2 := hop rfl
    have hoplt : (pid + 1) % s.players.length < s.players.length :=
      Nat.mod_lt _ (by omega)
    have hopne : (pid + 1) % s.players.length ≠ pid := by
      intro h
      rcases Nat.lt_or_ge (pid + 1) s.players.length with hlt | hge
      · rw [Nat.mod_eq_of_lt hlt] at h
        omega
      · have hpe : pid + 1 = s.players.length := by omega
        rw [hpe, Nat.mod_self] at h
        omega
    simp only [draw_card]
    rw [getPlayer_eq s ((pid + 1) % s.players.length) hoplt, getPlayer_eq s pid hpid]
    split
    · rfl
    case isFalse hne =>
      have hsum := map_sum_set2_nat (fun p => p.hand.length) s.players
        ((pid + 1) % s.players.length) pid
        { s.players[(pid + 1) % s.players.length] with
            hand := (s.players[(pid + 1) % s.players.length]).hand.dropLast }
        { s.players[pid] with
            hand := (s.players[pid]).hand ++
              [(s.players[(pid + 1) % s.players.length]).hand.getLastD default] }
        (by omega) hoplt hpid
      have hone : (s.players[(pid + 1) % s.players.length]).hand.length ≠ 0 := by
        intro h
        exact hne (List.eq_nil_of_length_eq_zero h)
      simp only [totalCards]
      simp only [List.length_append, List.length_cons, List.length_nil,
        List.length_dropLast] at hsum ⊢
      omega

/-- The draw loop conserves the card total. -/
theorem totalCards_draw_loop (pid : Nat) (src : Location) (n : Nat) (s : GameState)
    (hpid : pid < s.players.length)
    (hop : src = Location.OPPONENT_HAND → 2 ≤ s.players.length) :
    totalCards (draw_loop pid src n s) = totalCards s := by
  induction n generalizing s with
  | zero => rfl
  | succ k ih =>
      have hlen := (draw_card_fields s pid src).2.2.2
      simp only [draw_loop]
      rw [ih (draw_card s pid src) (by omega) (fun h => by rw [hlen]; exact hop h)]
      exact totalCards_draw_card s pid src hpid hop

/-- War-battle resolution conserves the card total: the first tableau pile
moves into the winner's hand. -/
theorem totalCards_war (s : GameState) (h2 : s.players.length = 2)
    (hact : s.active_player < s.players.length) :
    totalCards (resolve_war_battle s) = totalCards s := by
  have hw : ∀ (a b : Nat),
      (if a > b then 0 else if b > a then 1 else s.active_player) < s.players.length := by
    intro a b
    split
    · omega
    · split
      · omega
      · exact hact
  rcases htab : s.tableau with _ | piles
  · simp [resolve_war_battle, htab]
  · rcases piles with _ | ⟨p0, ptl⟩
    · simp [resolve_war_battle, htab]
    · simp only [resolve_war_battle, htab, List.headD_cons]
      split
      · rfl
      · split
        · rfl
        case isFalse hlen2 =>
          rw [getPlayer_eq s _ (hw _ _)]
          simp only [totalCards, htab]
          rw [map_sum_set_append s.players _ p0 (hw _ _)]
          simp only [List.map_cons, List.sum_cons, List.tail_cons, List.map_nil,
            List.sum_nil, List.length_nil]
          omega

/-- Resolving a non-empty trick removes exactly the trick's cards from play
(the winner gains score, not cards). -/
theorem totalCards_resolve_trick (s : GameState) (phase : TrickPhase) (g : GameGenome)
    (hne : s.current_trick ≠ []) :
    totalCards (resolve_trick s phase g) + s.current_trick.length = totalCards s := by
  simp only [resolve_trick, if_neg hne]
  simp only [totalCards]
  set W := (s.current_trick.getD
      (trick_winner_idx s.current_trick phase.trump_suit phase.high_card_wins
        (s.current_trick.headD default).card.suit) default).player_id with hW
  have hsh := map_sum_set_same_hand s.players W
    ⟨(getPlayer s W).player_id, (getPlayer s W).hand,
      (getPlayer s W).score + (s.current_trick.length : Int), (getPlayer s W).chips,
      (getPlayer s W).current_bet, (getPlayer s W).has_folded, (getPlayer s W).is_all_in⟩ rfl
  rw [hsh]
  simp only [List.length_nil]
  omega

/-- Challenge resolution conserves the card total: the discard pile moves
into the loser's hand. -/
theorem totalCards_resolve_challenge (s : GameState) (cid : Nat) (c : Claim)
    (hc : s.current_claim = some c)
    (hcid : cid < s.players.length) (hclaimer : c.claimer_id < s.players.length) :
    totalCards (resolve_challenge s cid) = totalCards s := by
  simp only [resolve_challenge, hc]
  have hl : (if c.cards_played.all
        (fun card => decide (rank_to_index card.rank = c.claimed_rank)) = true
      then cid else c.claimer_id) < s.players.length := by
    split <;> omega
  rw [getPlayer_eq s _ hl]
  simp only [totalCards]
  rw [map_sum_set_append s.players _ s.discard hl]
  simp only [List.length_nil]
  omega

/-- Playing a card into the trick conserves the card total (hand shrinks by
one, trick grows by one). -/
theorem totalCards_trick_play (s : GameState) (phase : TrickPhase) (idx : Nat)
    (hact : s.active_player < s.players.length)
    (hidx : idx < (getPlayer s s.active_player).hand.length) :
    totalCards (trick_play_state s phase idx) = totalCards s := by
  simp only [trick_play_state]
  rw [getPlayer_eq s s.active_player hact] at hidx ⊢
  have hsum := map_sum_set_nat (fun p => p.hand.length) s.players s.active_player
    { s.players[s.active_player] with
        hand := (s.players[s.active_player]).hand.eraseIdx idx } hact
  simp only at hsum
  have herase := List.length_eraseIdx_of_lt hidx
  simp only [totalCards, List.length_append, List.length_cons, List.length_nil]
  omega

/-- The trick play appends one trick card and keeps the player count. -/
theorem trick_play_fields (s : GameState) (phase : TrickPhase) (idx : Nat) :
    (trick_play_state s phase idx).current_trick.length = s.current_trick.length + 1 ∧
    (trick_play_state s phase idx).players.length = s.players.length := by
  simp [trick_play_state]

/-- Making a claim conserves the card total (hand shrinks by one, discard
grows by one; out-of-range index is a no-op). -/
theorem totalCards_claim_play (s : GameState) (idx : Nat)
    (hact : s.active_player < s.players.length) :
    totalCards (claim_play_state s idx) = totalCards s := by
  simp only [claim_play_state]
  rw [getPlayer_eq s s.active_player hact]
  split
  case isTrue hidx =>
    have hsum := map_sum_set_nat (fun p => p.hand.length) s.players s.active_player
      { s.players[s.active_player] with
          hand := (s.players[s.active_player]).hand.eraseIdx idx } hact
    simp only at hsum
    have herase := List.length_eraseIdx_of_lt hidx
    simp only [totalCards, List.length_append, List.length_cons, List.length_nil]
    omega
  · rfl

/-- C1 (amended): over any well-formed state (valid active player, at least
two players, valid claimer in any pending claim) and any move whose
Play/Discard target is deck, discard or tableau, one `apply_move` either
conserves `|deck| + |discard| + Σ|hand| + |tableau| + |current_trick|`, or
is a trick play that completes the trick, in which case the total drops by
exactly the completed trick's size (its cards leave play and become
score). -/
theorem card_conservation_step (s : GameState) (m : LegalMove) (g : GameGenome)
    (hwf : wfState s) (ht : moveTargetOk g m) :
    totalCards (apply_move s m g) = totalCards s ∨
    (∃ tp, g.turn_structure.phases.getD m.phase_index default = Phase.trick tp ∧
      0 ≤ m.card_index ∧
      m.card_index < ((getPlayer s s.active_player).hand.length : Int) ∧
      s.players.length ≤ s.current_trick.length + 1 ∧
      totalCards (apply_move s m g) + (s.current_trick.length + 1) = totalCards s) := by
  obtain ⟨hact, h2p, hclaim⟩ := hwf
  unfold moveTargetOk at ht
  by_cases hpi : g.turn_structure.phases.length ≤ m.phase_index
  · left
    have happ : apply_move s m g = s := by
      unfold apply_move
      rw [if_pos hpi]
    rw [happ]
  · rcases hph : g.turn_structure.phases.getD m.phase_index default with
      pp | dp | tpv | cp | drp | bp <;> simp only [hph] at ht
    · -- Play
      left
      unfold apply_move
      rw [if_neg (by omega : ¬ m.phase_index ≥ g.turn_structure.phases.length)]
      simp only [hph]
      rw [totalCards_generic_advance]
      split
      · split
        next hwar =>
          have hf := play_card_fields s s.active_player m.card_index m.target_loc
          rw [totalCards_war _ hwar.2 (by omega)]
          exact totalCards_play_card s s.active_player m.card_index m.target_loc ht
        next => exact totalCards_play_card s s.active_player m.card_index m.target_loc ht
      · rfl
    · -- Discard
      left
      unfold apply_move
      rw [if_neg (by omega : ¬ m.phase_index ≥ g.turn_structure.phases.length)]
      simp only [hph]
      rw [totalCards_generic_advance]
      split
      · exact totalCards_play_card s s.active_player m.card_index m.target_loc ht
      · rfl
    · -- Trick
      unfold apply_move
      rw [if_neg (by omega : ¬ m.phase_index ≥ g.turn_structure.phases.length)]
      simp only [hph]
      split
      next hg =>
        have hidx : m.card_index.toNat < (getPlayer s s.active_player).hand.length := by
          omega
        have hf := trick_play_fields s tpv m.card_index.toNat
        have htp := totalCards_trick_play s tpv m.card_index.toNat hact hidx
        split
        next hcomp =>
          right
          refine ⟨tpv, rfl, hg.1, hg.2, by omega, ?_⟩
          have hne : (trick_play_state s tpv m.card_index.toNat).current_trick ≠ [] := by
            intro h
            have := congrArg List.length h
            simp only [List.length_nil] at this
            omega
          have h1 := totalCards_resolve_trick (trick_play_state s tpv m.card_index.toNat)
            tpv g hne
          omega
        next hcomp =>
          left
          exact htp
      next hg =>
        left
        rw [totalCards_generic_advance]
    · -- Claim
      unfold apply_move
      rw [if_neg (by omega : ¬ m.phase_index ≥ g.turn_structure.phases.length)]
      simp only [hph]
      left
      split
      next h0 =>
        rw [totalCards_generic_advance]
        exact totalCards_claim_play s m.card_index.toNat hact
      next h0 =>
        split
        next hch =>
          rcases hclm : s.current_claim with _ | c
          · simp only [hclm]
            rw [totalCards_generic_advance]
          · simp only [hclm]
            exact totalCards_resolve_challenge s s.active_player c hclm hact
              (hclaim c hclm)
        next hch =>
          split
          next hpass => rfl
          next hpass =>
            rw [totalCards_generic_advance]
    · -- Draw
      left
      unfold apply_move
      rw [if_neg (by omega : ¬ m.phase_index ≥ g.turn_structure.phases.length)]
      simp only [hph]
      rw [totalCards_generic_advance]
      split
      · exact totalCards_draw_loop s.active_player drp.source drp.count s hact
          (fun _ => h2p)
      · rfl
    · -- Betting
      left
      unfold apply_move
      rw [if_neg (by omega : ¬ m.phase_index ≥ g.turn_structure.phases.length)]
      simp only [hph]
      rw [totalCards_generic_advance]

/-- Counterexample to C1 as stated: in a two-player trick game starting
with one card per hand (total 2), each player's only legal move plays into
the trick; the second play completes the trick, whose resolution removes
both cards from play — the total drops from 2 to 0 instead of staying
constant. -/
theorem card_conservation_counterexample :
    Move.legal exTrickMove ∈ generate_legal_moves exTrickS0 exTrickGenome ∧
    Move.legal exTrickMove ∈
      generate_legal_moves (apply_move exTrickS0 exTrickMove exTrickGenome) exTrickGenome ∧
    totalCards exTrickS0 = 2 ∧
    totalCards (apply_move (apply_move exTrickS0 exTrickMove exTrickGenome) exTrickMove
      exTrickGenome) = 0 := by
  decide

/-- Witness for the amended C1 at a concrete non-trick move: a discard-
targeted play conserves the total. -/
theorem card_conservation_step_witness :
    totalCards (apply_move exTwoPhaseS0 ⟨0, 0, .DISCARD⟩ exTwoPhaseGenome)
      = totalCards exTwoPhaseS0 := by
  rcases card_conservation_step exTwoPhaseS0 ⟨0, 0, .DISCARD⟩ exTwoPhaseGenome
      ⟨by decide, by decide, fun c h => nomatch h⟩ (by exact fun h => nomatch h) with
    h | ⟨tp, htp, _⟩
  · exact h
  · exact nomatch htp

end DarwinDeck
